import Mathlib

/-!
Verification of the shared-surface rendering core and the ECG waveform
viewport of this repository.  Numeric code is embedded over `ℚ`/`ℤ`/`ℕ`
(JS numbers carry exact values in every computation the claims touch),
DOM/GPU objects become explicit records, and thrown exceptions become
`Except` values.
-/

namespace S2P

/-! ### ECG waveform data model (ECGViewport) -/

/-- Channel descriptor: `ECGChannel` from the core types
(name, sample buffer, visibility flag, cached min/max). -/
structure ECGChannel where
  name : String
  data : List ℤ
  visible : Bool
  min : ℤ
  max : ℤ
deriving DecidableEq, Repr

instance : Inhabited ECGChannel := ⟨⟨"", [], false, 0, 0⟩⟩

/-- Embeds `computeMinMax` (ECGViewport): both accumulators start at `0`
and the loop lowers `min` / raises `max` past each sample. -/
def computeMinMax (data : List ℤ) : ℤ × ℤ :=
  data.foldl
    (fun mm d =>
      (if d < mm.1 then d else mm.1, if mm.2 < d then d else mm.2))
    (0, 0)

/-- Viewport state of `ECGViewport` that the claims touch: loaded channels,
waveform presence, content dimensions, amplitude scale and the pan/zoom
camera (`ecgCamera`), plus the on-screen canvas extent used by
`computeChannelScale` / `refreshRenderValues`. -/
structure ECGState where
  imageId : Option String
  channels : List ECGChannel
  hasWaveformData : Bool
  numberOfSamples : ℕ
  samplingFrequency : ℚ
  ecgWidth : ℚ
  ecgHeight : ℚ
  channelScale : ℚ
  panWorldX : ℚ
  panWorldY : ℚ
  parallelScale : ℚ
  canvasOffsetW : ℚ
  canvasOffsetH : ℚ
deriving DecidableEq, Repr

/-- Per-channel layout record produced by `computeChannelLayouts`. -/
structure ChannelLayout where
  channel : ECGChannel
  itemHeight : ℚ
  yOffset : ℚ
  baseline : ℚ
deriving DecidableEq, Repr

instance : Inhabited ChannelLayout := ⟨⟨default, 0, 0, 0⟩⟩

/-- Loop body of `computeChannelLayouts`: visible non-empty channels stack
top to bottom; `yOffset` accumulates `itemHeight + CHANNEL_SPACING` (5) and
the baseline sits at `yOffset + min * scale`.  `1.25` is written `5/4`. -/
def computeChannelLayoutsAux (scale : ℚ) : ℚ → List ECGChannel → List ChannelLayout
  | _, [] => []
  | y, c :: rest =>
    if c.visible ∧ 0 < c.data.length then
      let itemHeight := ((c.max - c.min : ℤ) : ℚ) * scale * (5 / 4)
      let y2 := y + itemHeight + 5
      ⟨c, itemHeight, y2, y2 + (c.min : ℚ) * scale⟩ ::
        computeChannelLayoutsAux scale y2 rest
    else computeChannelLayoutsAux scale y rest

/-- Embeds `computeChannelLayouts` (ECGViewport). -/
def computeChannelLayouts (st : ECGState) : List ChannelLayout :=
  computeChannelLayoutsAux st.channelScale 0 st.channels

/-- Visible non-empty channels, the filter used by `computeChannelScale`. -/
def visibleNonEmpty (cs : List ECGChannel) : List ECGChannel :=
  cs.filter (fun c => c.visible ∧ 0 < c.data.length)

/-- Largest amplitude range among visible channels, floored at 1
(the `maxRange` fold in `computeChannelScale`). -/
def maxVisibleRange (cs : List ECGChannel) : ℚ :=
  (visibleNonEmpty cs).foldl (fun m c => max m ((c.max - c.min : ℤ) : ℚ)) 1

/-- Embeds `computeChannelScale` (ECGViewport): a uniform world-per-data
scale from the largest visible range, the canvas aspect (defaulting to
`2/3` when an offset extent is zero) and the per-channel height budget. -/
def computeChannelScale (st : ECGState) : ℚ :=
  let vis := visibleNonEmpty st.channels
  if vis.length = 0 ∨ st.ecgWidth = 0 then 0
  else
    let maxRange := maxVisibleRange st.channels
    let canvasAspect :=
      if st.canvasOffsetH ≠ 0 ∧ st.canvasOffsetW ≠ 0 then
        st.canvasOffsetH / st.canvasOffsetW
      else 2 / 3
    let targetTotalHeight := st.ecgWidth * canvasAspect
    let totalSpacing := 5 * (vis.length : ℚ)
    let heightPerChannel := (targetTotalHeight - totalSpacing) / (vis.length : ℚ)
    heightPerChannel / (maxRange * (5 / 4))

/-- Embeds `recalculateHeight` (ECGViewport): total stacked height of the
visible non-empty channels at a given scale. -/
def recalculateHeight (cs : List ECGChannel) (scale : ℚ) : ℚ :=
  cs.foldl
    (fun acc c =>
      if c.visible ∧ 0 < c.data.length then
        acc + (((c.max - c.min : ℤ) : ℚ) * scale * (5 / 4) + 5)
      else acc)
    0

/-- Embeds `refreshRenderValues` (ECGViewport): fit-to-canvas pan and
uniform scale; a zero content extent leaves the camera untouched. -/
def refreshRenderValues (st : ECGState) : ECGState :=
  if st.ecgWidth = 0 ∨ st.ecgHeight = 0 then st
  else
    let r0 := st.canvasOffsetW / st.ecgWidth
    let r := if st.canvasOffsetH < st.ecgHeight * r0 then st.canvasOffsetH / st.ecgHeight else r0
    let drawW := (⌊st.ecgWidth * r⌋ : ℚ)
    let drawH := (⌊st.ecgHeight * r⌋ : ℚ)
    let xOffC := (st.canvasOffsetW - drawW) / 2
    let yOffC := (st.canvasOffsetH - drawH) / 2
    { st with panWorldX := xOffC / r, panWorldY := yOffC / r, parallelScale := r }

/-- Embeds `setChannelVisibility` (ECGViewport): guarded index update of the
visibility flag followed by the scale/height/camera recomputation. -/
def setChannelVisibility (st : ECGState) (i : ℕ) (v : Bool) : ECGState :=
  if i < st.channels.length then
    let cs := st.channels.set i { st.channels.getD i default with visible := v }
    let st1 := { st with channels := cs }
    let st2 := { st1 with channelScale := computeChannelScale st1 }
    let st3 := { st2 with ecgHeight := recalculateHeight st2.channels st2.channelScale }
    refreshRenderValues st3
  else st

/-- Source-loop search of `canvasToWorld`: first layout whose `yOffset` is
at or below the probe (`subCanvasPos[1] <= layout.yOffset` breaks). -/
def findFirstLE (v : ℚ) : List ChannelLayout → Option ℕ
  | [] => none
  | l :: rest =>
    if v ≤ l.yOffset then some 0 else (findFirstLE v rest).map (· + 1)

/-- Channel picked by the `canvasToWorld` loop: first band whose bottom is
at or below the point, else the last band (and `0` when none exist). -/
def findChannelIdx (layouts : List ChannelLayout) (v : ℚ) : ℕ :=
  match findFirstLE v layouts with
  | some i => i
  | none => layouts.length - 1

/-- Embeds `canvasToWorld` (ECGViewport): remove pan/zoom, locate the band,
invert the linear sample/amplitude maps (clamping the sample index). -/
def canvasToWorld (st : ECGState) (p : ℚ × ℚ) : ℚ × ℚ × ℚ :=
  if st.hasWaveformData = false then (0, 0, 0)
  else
    let scale := st.parallelScale
    let subX := p.1 / scale - st.panWorldX
    let subY := p.2 / scale - st.panWorldY
    let layouts := computeChannelLayouts st
    let z := findChannelIdx layouts subY
    let n : ℚ := st.numberOfSamples
    let x := max 0 (min (n - 1) (subX * n / st.ecgWidth))
    let l := layouts.getD z default
    (x, (l.baseline - subY) / st.channelScale, (z : ℚ))

/-- Embeds `worldToCanvas` (ECGViewport): band baseline minus scaled
amplitude, linear sample map across the content width, then pan/zoom. -/
def worldToCanvas (st : ECGState) (w : ℚ × ℚ × ℚ) : ℚ × ℚ :=
  if st.hasWaveformData = false then (0, 0)
  else
    let scale := st.parallelScale
    let layouts := computeChannelLayouts st
    let z : ℤ := round w.2.2
    if z < 0 ∨ (layouts.length : ℤ) ≤ z then (0, 0)
    else
      let l := layouts.getD z.toNat default
      let n : ℚ := st.numberOfSamples
      ((w.1 / n) * st.ecgWidth * scale + st.panWorldX * scale,
        (l.baseline - w.2.1 * st.channelScale) * scale + st.panWorldY * scale)

/-- Top edge of visible band `c`: the previous band's `yOffset`
(`0` above the first band). -/
def bandTop (st : ECGState) (c : ℕ) : ℚ :=
  if c = 0 then 0 else ((computeChannelLayouts st).getD (c - 1) default).yOffset

/-! ### ECG load path (setEcg, ECGHelpers.makeRetrieveBulkData) -/

/-- JS `ToInt32` of a non-negative number, used by the bitwise sign
extension in `convertBuffer`. -/
def toInt32 (n : ℕ) : ℤ :=
  let m := n % 4294967296
  if m < 2147483648 then (m : ℤ) else (m : ℤ) - 4294967296

/-- Embeds `convertBuffer` (ECGHelpers): deinterleaves a little-endian
16-bit signed buffer into per-channel arrays; any other format warns and
yields no channels. -/
def convertBuffer (data : List ℕ) (numberOfChannels numberOfSamples : ℕ)
    (bits : ℕ) (typ : String) : List (List ℤ) :=
  if bits = 16 ∧ typ = "SS" then
    let totalBytes := 2 * numberOfChannels * numberOfSamples
    let length := min data.length totalBytes
    (List.range numberOfChannels).map fun channel =>
      ((List.range numberOfSamples).map fun i =>
        let sample := 2 * channel + i * (2 * numberOfChannels)
        if sample < length then
          let lowByte := data.getD sample 0
          let highByte := data.getD (sample + 1) 0
          if highByte &&& 128 ≠ 0 then
            toInt32 (4294901760 ||| (highByte <<< 8) ||| lowByte)
          else toInt32 ((highByte <<< 8) ||| lowByte)
        else 0)
  else []

/-- The `WaveformData` record handed to `makeRetrieveBulkData`: each of the
four recognized source forms is either absent or present with the bytes
(or already-decoded channels) it would supply.  Base64/network decoding is
environment work; the fields hold its result. -/
structure WaveformSrc where
  value : Option (List (List ℤ))
  inlineBinary : Option (List ℕ)
  retrieveBulk : Option (List ℕ)
  bulkDataURI : Option (List ℕ)
deriving DecidableEq, Repr

/-- Embeds the closure built by `makeRetrieveBulkData` (ECGHelpers): tries
`Value`, `InlineBinary`, dicomweb `retrieveBulkData`, then `BulkDataURI`,
and throws a data-source error when none is present. -/
def retrieveBulkDataM (src : WaveformSrc) (numberOfChannels numberOfSamples : ℕ)
    (bits : ℕ) (typ : String) : Except String (List (List ℤ)) :=
  match src.value with
  | some v => .ok v
  | none =>
    match src.inlineBinary with
    | some raw => .ok (convertBuffer raw numberOfChannels numberOfSamples bits typ)
    | none =>
      match src.retrieveBulk with
      | some bulk => .ok (convertBuffer bulk numberOfChannels numberOfSamples bits typ)
      | none =>
        match src.bulkDataURI with
        | some buf => .ok (convertBuffer buf numberOfChannels numberOfSamples bits typ)
        | none => .error "No data source found in WaveformData"

/-- The ecg metadata module consumed by `setEcg` (shape of
`ECGHelpers.getECGModule`'s result). -/
structure EcgModuleM where
  numberOfChannels : ℕ
  numberOfSamples : ℕ
  samplingFrequency : ℚ
  bitsAllocated : ℕ
  sampleInterpretation : String
  channelNames : List (Option String)
  waveformSrc : WaveformSrc
deriving DecidableEq, Repr

/-- Result of a `setEcg` call: the state after the call (mutations made
before a throw persist on the viewport object) and the error, if thrown. -/
structure EcgLoadResult where
  state : ECGState
  err : Option String
deriving DecidableEq, Repr

/-- Channel-descriptor loop of `setEcg`: one `ECGChannel` per source
channel with cached min/max; a missing array becomes an empty buffer and a
missing code meaning falls back to a positional name. -/
def buildChannels (numberOfChannels : ℕ) (names : List (Option String))
    (arrays : List (List ℤ)) : List ECGChannel :=
  (List.range numberOfChannels).map fun i =>
    let name := (names.getD i none).getD ("Channel " ++ toString (i + 1))
    let data := arrays.getD i []
    let mm := computeMinMax data
    ⟨name, data, true, mm.1, mm.2⟩

/-- Embeds `setEcg` (ECGViewport).  `this.imageId` is assigned before any
check; a missing ecg module throws; the bulk-data retrieval may throw the
data-source error; on success the channels, waveform data, content extent,
scale, height and camera are recomputed (`SECONDS_WIDTH = 150`). -/
def setEcg (st : ECGState) (imageId : String) (meta : Option EcgModuleM) :
    EcgLoadResult :=
  let st0 := { st with imageId := some imageId }
  match meta with
  | none => ⟨st0, some "No ECG waveform data for imageId"⟩
  | some m =>
    match retrieveBulkDataM m.waveformSrc m.numberOfChannels m.numberOfSamples
        m.bitsAllocated m.sampleInterpretation with
    | .error e => ⟨st0, some e⟩
    | .ok channelArrays =>
      let channels := buildChannels m.numberOfChannels m.channelNames channelArrays
      let st1 := { st0 with
        channels := channels
        hasWaveformData := true
        numberOfSamples := m.numberOfSamples
        samplingFrequency := m.samplingFrequency
        ecgWidth := (⌈(m.numberOfSamples : ℚ) * 150 / m.samplingFrequency⌉ : ℚ) }
      let st2 := { st1 with channelScale := computeChannelScale st1 }
      let st3 := { st2 with ecgHeight := recalculateHeight st2.channels st2.channelScale }
      ⟨refreshRenderValues st3, none⟩

/-! ### ECG grid rendering (drawGrid) -/

/-- Positions drawn by one grid loop of `drawGrid`: line index `1` up to
`floor(extent / spacing)`, each at `index * spacing`; minor loops skip
every fifth index (those lines are drawn as major only). -/
def gridLinePositions (spacing extent : ℚ) (skipFifth : Bool) : List ℚ :=
  ((List.range' 1 (⌊extent / spacing⌋.toNat)).filter
      (fun h => !skipFifth || h % 5 ≠ 0)).map
    (fun h : ℕ => (h : ℚ) * spacing)

/-- Existence of a doubling count making the adaptive horizontal unit wide
enough on screen; this is the termination fact of the `while` loop in
`drawGrid`. -/
def hGridExists (scale : ℚ) (h : 0 < scale) :
    ∃ k : ℕ, 8 ≤ 100 * 2 ^ k * scale := by
  obtain ⟨n, hn⟩ := exists_nat_gt (8 / (100 * scale))
  refine ⟨n, ?_⟩
  have h100 : (0 : ℚ) < 100 * scale := by positivity
  have hpow : (n : ℚ) ≤ 2 ^ n := by
    exact_mod_cast (Nat.lt_two_pow n).le
  have : 8 / (100 * scale) ≤ 2 ^ n := le_trans hn.le hpow
  calc (8 : ℚ) = 8 / (100 * scale) * (100 * scale) := by field_simp
    _ ≤ 2 ^ n * (100 * scale) := by
        exact mul_le_mul_of_nonneg_right this h100.le
    _ = 100 * 2 ^ n * scale := by ring

/-- Adaptive horizontal grid unit of `drawGrid`: start at the standard
`100` data units and double until `unit * scale` reaches the 8-pixel
minimum spacing (the fewest doublings that get there). -/
def hGridUnit (scale : ℚ) : ℚ :=
  if h : 0 < scale then 100 * 2 ^ Nat.find (hGridExists scale h) else 100

/-- Line positions produced by `drawGrid` (ECGViewport): horizontal lines
use the adaptive unit, vertical lines the fixed time grid
(`SECONDS_WIDTH/25 = 6` and `SECONDS_WIDTH/5 = 30`); a non-positive scale
draws nothing. -/
structure GridLines where
  minorH : List ℚ
  majorH : List ℚ
  minorV : List ℚ
  majorV : List ℚ
deriving DecidableEq, Repr

/-- Embeds `drawGrid` (ECGViewport). -/
def drawGrid (scale pxWidth pxHeight : ℚ) : GridLines :=
  if scale ≤ 0 then ⟨[], [], [], []⟩
  else
    let minorHsp := hGridUnit scale * scale
    let majorHsp := minorHsp * 5
    let minorVsp : ℚ := 6
    let majorVsp : ℚ := 30
    ⟨gridLinePositions minorHsp pxHeight true,
      gridLinePositions majorHsp pxHeight false,
      gridLinePositions minorVsp pxWidth true,
      gridLinePositions majorVsp pxWidth false⟩

/-! ### Context-pool viewport assignment (ContextPoolRenderingEngine) -/

/-- Viewport kinds the engine dispatches on. -/
inductive VType where
  | stack
  | orthographic
  | perspective
  | volume3D
  | ecg
deriving DecidableEq, Repr

/-- Embeds `viewportTypeUsesCustomRenderingPipeline` for the kinds in the
model: only the ECG waveform viewport renders through its own pipeline. -/
def usesCustomPipeline : VType → Bool
  | .ecg => true
  | _ => false

/-- Engine bookkeeping touched by `addVtkjsDrivenViewport`: the ordered
`_viewports` map and the pool's viewport-to-context assignment.
Modelled from the spec: the pool (`WebGLContextPool`, not under `src/`)
owns `poolSize` contexts, so `getAllContexts()` has length `poolSize`. -/
structure CPEngine where
  viewports : List (String × VType)
  assignments : List (String × ℕ)
deriving DecidableEq, Repr

/-- Embeds `addVtkjsDrivenViewport` (ContextPoolRenderingEngine): a stack
viewport is assigned context `_viewports.size % poolSize`, every other
kind context `0`; the pool assignment happens before the constructor
dispatch, which throws on an unsupported kind (so the viewport is then not
added to `_viewports`).  The `Bool` is `false` when the call threw. -/
def addVtkjsDrivenViewport (poolSize : ℕ) (e : CPEngine) (vid : String)
    (t : VType) : CPEngine × Bool :=
  let contextIndex := if t = VType.stack then e.viewports.length % poolSize else 0
  let e1 := { e with assignments := e.assignments ++ [(vid, contextIndex)] }
  match t with
  | .stack | .orthographic | .perspective | .volume3D =>
    ({ e1 with viewports := e1.viewports ++ [(vid, t)] }, true)
  | _ => (e1, false)

/-- Enabling a sequence of vtk.js-driven viewports on a fresh engine. -/
def enableViewports (poolSize : ℕ) (entries : List (String × VType)) : CPEngine :=
  entries.foldl (fun e p => (addVtkjsDrivenViewport poolSize e p.1 p.2).1) ⟨[], []⟩

/-! ### Render / resize coordinator (ContextPoolRenderingEngine) -/

/-- On-screen canvas descriptor: backing-store extent, displayed (client)
extent and the CSS aspect ratio hint. -/
structure Canvas where
  width : ℕ
  height : ℕ
  clientWidth : ℕ
  clientHeight : ℕ
  aspectW : ℕ
  aspectH : ℕ
deriving DecidableEq, Repr

/-- Camera state the resize path reads and writes (`getCamera`,
`resetCameraForResize`, `setCamera`, `setViewPresentation`). -/
structure Camera where
  value : ℤ
  flipHorizontal : Bool
  rotation : ℤ
deriving DecidableEq, Repr

/-- A viewport as the coordinator sees it. -/
structure EViewport where
  id : String
  vtype : VType
  canvas : Canvas
  sWidth : ℕ
  sHeight : ℕ
  sx : ℕ
  sy : ℕ
  camera : Camera
  displayArea : Bool
  rendered : Bool
deriving DecidableEq, Repr

/-- Modelled from the spec: `WebGLContextPool` (not under `src/`) keeps a
viewport-to-context assignment plus each viewport's last requested render
extent; a context's max footprint is the component-wise maximum over its
assigned viewports, and `updateViewportSize` reports whether that maximum
changed. -/
structure ContextPool where
  count : ℕ
  assignments : List (String × ℕ)
  sizes : List (String × ℕ × ℕ)
deriving DecidableEq, Repr

/-- Context index assigned to a viewport (`getContextIndexForViewport`). -/
def ContextPool.contextIndexFor (p : ContextPool) (vid : String) : Option ℕ :=
  (p.assignments.find? (fun a => a.1 == vid)).map (·.2)

/-- Modelled from the spec: max footprint of one context
(`getMaxSizeForContext`), the component-wise maximum width/height over the
viewports assigned to it. -/
def ContextPool.maxSizeFor (p : ContextPool) (i : ℕ) : ℕ × ℕ :=
  p.sizes.foldl
    (fun acc s =>
      if p.contextIndexFor s.1 = some i then (max acc.1 s.2.1, max acc.2 s.2.2)
      else acc)
    (0, 0)

/-- Modelled from the spec: `updateViewportSize` records the viewport's
requested extent and reports whether its context's maximum changed. -/
def ContextPool.updateViewportSize (p : ContextPool) (vid : String) (w h : ℕ) :
    ContextPool × Bool :=
  match p.contextIndexFor vid with
  | none => (p, false)
  | some ci =>
    let old := p.maxSizeFor ci
    let p1 := { p with
      sizes :=
        if p.sizes.any (fun s => s.1 == vid) then
          p.sizes.map (fun s => if s.1 == vid then (vid, w, h) else s)
        else p.sizes ++ [(vid, w, h)] }
    (p1, decide (p1.maxSizeFor ci ≠ old))

/-- One named sub-renderer of an offscreen surface: draw flag and
normalized viewport rectangle. -/
structure SubRenderer where
  id : String
  draw : Bool
  rx0 : ℚ
  ry0 : ℚ
  rx1 : ℚ
  ry1 : ℚ
deriving DecidableEq, Repr

/-- One offscreen rendering context: container extent and sub-renderers. -/
structure OffCtx where
  containerW : ℕ
  containerH : ℕ
  renderers : List SubRenderer
deriving DecidableEq, Repr

/-- Engine state for the render/resize coordinator: viewports, the dirty
set (`_needsRender`), the scheduler flag (`_animationFrameSet`), the pool,
the offscreen contexts, the widget renderers (owner viewport id and draw
flag) and the CPU-rendering switch. -/
structure Engine where
  viewports : List EViewport
  needsRender : List String
  animationFrameSet : Bool
  pool : ContextPool
  contexts : List OffCtx
  widgets : List (String × Bool)
  useCPURendering : Bool
deriving DecidableEq, Repr

/-- Replace a viewport by id. -/
def Engine.updateViewport (e : Engine) (vid : String) (f : EViewport → EViewport) :
    Engine :=
  { e with viewports := e.viewports.map (fun vp => if vp.id = vid then f vp else vp) }

/-- Replace a context by index. -/
def Engine.updateCtx (e : Engine) (ci : ℕ) (f : OffCtx → OffCtx) : Engine :=
  { e with
    contexts := (e.contexts.enum).map (fun p => if p.1 = ci then f p.2 else p.2) }

/-- Observable events of one render pass, in program order. -/
inductive REvent where
  | offscreenResize (ci w h : ℕ)
  | setRect (vid : String)
  | draw
  | onscreenMutate (vid : String) (w h : ℕ)
  | copy (vid : String) (sourceY : ℤ) (w h : ℕ)
deriving DecidableEq, Repr

/-- Embeds `updateCanvasSizeAndAspectRatio` with an extent argument
(getOrCreateCanvas helper): a degenerate extent is ignored, a differing
extent resizes the canvas and its aspect hint and reports `true`. -/
def updateCanvasToExtent (c : Canvas) (w h : ℕ) : Canvas × Bool :=
  if w < 1 ∨ h < 1 then (c, false)
  else if c.width ≠ w ∨ c.height ≠ h then
    ({ c with width := w, height := h, aspectW := w, aspectH := h }, true)
  else (c, false)

/-- Embeds `_resizeOffScreenCanvasForViewport`: record the viewport's
requested extent in the pool, and when the context's maximum changed and
differs from the container, grow the container and resize the offscreen
window. -/
def resizeOffScreenCanvasForViewport (e : Engine) (vp : EViewport) :
    Engine × List REvent :=
  match e.pool.contextIndexFor vp.id with
  | none => (e, [])
  | some ci =>
    let pr := e.pool.updateViewportSize vp.id vp.sWidth vp.sHeight
    let e1 := { e with pool := pr.1 }
    if pr.2 then
      let ms := pr.1.maxSizeFor ci
      let ctx := e1.contexts.getD ci ⟨0, 0, []⟩
      if ctx.containerW = ms.1 ∧ ctx.containerH = ms.2 then (e1, [])
      else
        (e1.updateCtx ci (fun c => { c with containerW := ms.1, containerH := ms.2 }),
          [.offscreenResize ci ms.1 ms.2])
    else (e1, [])

/-- Embeds `_copyToOnscreenCanvas`: the on-screen canvas is sized to the
rendered extent only now, and the copy reads the surface sub-rectangle
starting at `maxSize.height - dHeight` (bottom-anchored surface origin). -/
def copyToOnscreenCanvas (e : Engine) (vid : String) : Engine × List REvent :=
  match e.viewports.find? (fun vp => vp.id == vid) with
  | none => (e, [])
  | some vp =>
    let dWidth := vp.sWidth
    let dHeight := vp.sHeight
    let cu := updateCanvasToExtent vp.canvas dWidth dHeight
    let e1 := e.updateViewport vid (fun v => { v with canvas := cu.1 })
    let ms := e1.pool.maxSizeFor ((e1.pool.contextIndexFor vid).getD 0)
    let sourceY : ℤ := (ms.2 : ℤ) - (dHeight : ℤ)
    (e1,
      (if cu.2 then [REvent.onscreenMutate vid dWidth dHeight] else []) ++
        [REvent.copy vid sourceY dWidth dHeight])

/-- Result of one viewport render pass: post state, outcome (`.error` is a
thrown exception, `.ok none` a skipped pass, `.ok (some vid)` a completed
pass with its event detail), the emitted events, and the draw flags of the
context's sub-renderers and of the widget renderers as they stood during
the isolated draw. -/
structure PassOut where
  engine : Engine
  outcome : Except String (Option String)
  trace : List REvent
  flagsAtDraw : Option (List (String × Bool) × List (String × Bool))
deriving Repr

/-- Embeds the draw-isolation portion of `_renderViewportWithContext`:
every sub-renderer of the context draws iff it is the rendered viewport's,
and every widget renderer draws iff its owner is the rendered viewport. -/
def setDrawFlags (e : Engine) (ci : ℕ) (vid : String) : Engine :=
  let e1 := e.updateCtx ci (fun c =>
    { c with renderers := c.renderers.map (fun r => { r with draw := r.id = vid }) })
  { e1 with widgets := e1.widgets.map (fun w => (w.1, w.1 = vid)) }

/-- Embeds the flag reset after `renderWindow.render()`: all sub-renderers
of the context and all widget renderers stop drawing. -/
def resetDrawFlags (e : Engine) (ci : ℕ) : Engine :=
  let e1 := e.updateCtx ci (fun c =>
    { c with renderers := c.renderers.map (fun r => { r with draw := false }) })
  { e1 with widgets := e1.widgets.map (fun w => (w.1, false)) }

/-- Embeds `_renderViewportWithContext` (ContextPoolRenderingEngine).
`minSize` is `VIEWPORT_MIN_SIZE` from the base engine. -/
def renderViewportWithContext (minSize : ℕ) (e : Engine) (vp : EViewport)
    (ci : ℕ) : PassOut :=
  if vp.canvas.clientWidth = 0 ∨ vp.canvas.clientHeight = 0 then
    ⟨e, .ok none, [], none⟩
  else if vp.sWidth < minSize ∨ vp.sHeight < minSize then
    ⟨e, .ok none, [], none⟩
  else if usesCustomPipeline vp.vtype then ⟨e, .ok (some vp.id), [], none⟩
  else if e.useCPURendering then
    ⟨e, .error "GPU not available, and using a viewport with no custom render pipeline.", [], none⟩
  else
    let e1 :=
      if (e.contexts.getD ci ⟨0, 0, []⟩).renderers.any (fun r => r.id == vp.id) then e
      else e.updateCtx ci (fun c =>
        { c with renderers := c.renderers ++ [⟨vp.id, false, 0, 0, 1, 1⟩] })
    let rr := resizeOffScreenCanvasForViewport e1 vp
    let e2 := rr.1
    let ms := e2.pool.maxSizeFor ci
    let xEnd := min 1 ((vp.sWidth : ℚ) / (ms.1 : ℚ))
    let yEnd := min 1 ((vp.sHeight : ℚ) / (ms.2 : ℚ))
    let e3 := e2.updateCtx ci (fun c =>
      { c with renderers := c.renderers.map (fun r =>
          if r.id = vp.id then { r with rx0 := 0, ry0 := 0, rx1 := xEnd, ry1 := yEnd }
          else r) })
    let e4 := setDrawFlags e3 ci vp.id
    let flagsR := ((e4.contexts.getD ci ⟨0, 0, []⟩).renderers).map (fun r => (r.id, r.draw))
    let flagsW := e4.widgets
    let e5 := resetDrawFlags e4 ci
    let cp := copyToOnscreenCanvas e5 vp.id
    ⟨cp.1, .ok (some vp.id),
      rr.2 ++ [.setRect vp.id] ++ [.draw] ++ cp.2,
      some (flagsR, flagsW)⟩

/-- Embeds `renderViewportUsingCustomOrVtkPipeline`: custom-pipeline kinds
render to their own canvas, CPU rendering throws, otherwise the pass runs
on the viewport's assigned context (a missing assignment is a fatal lookup
failure). -/
def renderViewportPipeline (minSize : ℕ) (e : Engine) (vp : EViewport) : PassOut :=
  if usesCustomPipeline vp.vtype then ⟨e, .ok (some vp.id), [], none⟩
  else if e.useCPURendering then
    ⟨e, .error "GPU not available, and using a viewport with no custom render pipeline.", [], none⟩
  else
    match e.pool.contextIndexFor vp.id with
    | none => ⟨e, .error "no context assigned to viewport", [], none⟩
    | some ci => renderViewportWithContext minSize e vp ci

/-- Deletion of one viewport id from the dirty set
(`this._needsRender.delete(viewport.id)`). -/
def Engine.removeNeedsRender (e : Engine) (vid : String) : Engine :=
  { e with needsRender := e.needsRender.filter (fun x => x ≠ vid) }

/-- One iteration of the `_renderFlaggedViewports` loop: render the
viewport, mark it rendered, delete it from the dirty set, collect its
event detail. -/
def renderFlaggedStep (minSize : ℕ) (acc : Engine × List (Option String))
    (vid : String) : Except String (Engine × List (Option String)) :=
  match acc.1.viewports.find? (fun vp => vp.id == vid) with
  | none => .ok acc
  | some vp =>
    match (renderViewportPipeline minSize acc.1 vp).outcome with
    | .error s => .error s
    | .ok d =>
      .ok
        (((renderViewportPipeline minSize acc.1 vp).engine.updateViewport vid
            (fun v => { v with rendered := true })).removeNeedsRender vid,
          acc.2 ++ [d])

/-- The render loop over the captured dirty viewport ids (a thrown render
error propagates out of the frame callback). -/
def renderFlaggedLoop (minSize : ℕ) :
    List String → Engine × List (Option String) →
    Except String (Engine × List (Option String))
  | [], acc => .ok acc
  | vid :: rest, acc =>
    match renderFlaggedStep minSize acc vid with
    | .error s => .error s
    | .ok acc' => renderFlaggedLoop minSize rest acc'

/-- Embeds `_renderFlaggedViewports` (the frame callback): render every
dirty viewport in viewport order, clearing each dirty entry as it is
processed, then clear the scheduler flag.  Returns the post state and the
event details collected for the completion notifications. -/
def renderFlaggedViewports (minSize : ℕ) (e : Engine) :
    Except String (Engine × List (Option String)) :=
  let toRender := e.viewports.filter (fun vp => e.needsRender.contains vp.id)
  if toRender.isEmpty then .ok ({ e with animationFrameSet := false }, [])
  else
    match renderFlaggedLoop minSize (toRender.map (fun vp => vp.id)) (e, []) with
    | .error s => .error s
    | .ok r => .ok ({ r.1 with animationFrameSet := false }, r.2)

/-- One viewport's iteration of the `_resize` helper loop: zero the source
offsets, push the requested extent into the pool (collecting the context
index when its maximum changed) and recompute the sub-renderer's
normalized rectangle against the context maximum. -/
def resizeHelperStep (acc : Engine × List ℕ) (vid : String) : Engine × List ℕ :=
  match acc.1.viewports.find? (fun vp => vp.id == vid) with
  | none => acc
  | some vp =>
    let e1 := acc.1.updateViewport vid (fun v => { v with sx := 0, sy := 0 })
    match e1.pool.contextIndexFor vid with
    | none => (e1, acc.2)
    | some ci =>
      let pr := e1.pool.updateViewportSize vid vp.sWidth vp.sHeight
      let e2 := { e1 with pool := pr.1 }
      let changed := if pr.2 then acc.2 ++ [ci] else acc.2
      let ms := pr.1.maxSizeFor ci
      let xEnd := min 1 ((vp.sWidth : ℚ) / (ms.1 : ℚ))
      let yEnd := min 1 ((vp.sHeight : ℚ) / (ms.2 : ℚ))
      let e3 := e2.updateCtx ci (fun c =>
        { c with renderers := c.renderers.map (fun r =>
            if r.id = vid then { r with rx0 := 0, ry0 := 0, rx1 := xEnd, ry1 := yEnd }
            else r) })
      (e3, changed)

/-- Growing one context's container to its current maximum footprint
(the tail of the `_resize` helper). -/
def syncContainerToMax (acc : Engine) (ci : ℕ) : Engine :=
  let ms := acc.pool.maxSizeFor ci
  acc.updateCtx ci (fun c => { c with containerW := ms.1, containerH := ms.2 })

/-- Embeds the `_resize` helper: per-viewport pool/rectangle updates, then
container growth for every context whose maximum changed. -/
def resizeHelper (e : Engine) (ids : List String) : Engine :=
  let res := ids.foldl resizeHelperStep (e, [])
  res.2.foldl syncContainerToMax res.1

/-- Camera restoration loop at the end of `_resizeVTKViewports`: reset the
camera for the new geometry, then either reapply flip/rotation (when a
display-area fit constraint exists) or restore the full prior camera. -/
def resizeCameraStep (keepCamera : Bool) (vp : EViewport) : EViewport :=
  let prev := vp.camera
  let vp1 := { vp with camera := ⟨0, false, 0⟩ }
  if keepCamera then
    if vp1.displayArea then
      let c1 := if prev.flipHorizontal then
          { vp1.camera with flipHorizontal := prev.flipHorizontal }
        else vp1.camera
      let c2 := if prev.rotation ≠ 0 then { c1 with rotation := prev.rotation } else c1
      { vp1 with camera := c2 }
    else { vp1 with camera := prev }
  else vp1

/-- Displayed extent of a canvas: client size scaled by the device pixel
ratio and rounded (`Math.round`). -/
def displayedSize (c : Canvas) (dpr : ℚ) : ℤ × ℤ :=
  (round ((c.clientWidth : ℚ) * dpr), round ((c.clientHeight : ℚ) * dpr))

/-- The filter selecting viewports whose displayed size is non-zero and
differs from the currently rendered canvas size. -/
def needsResize (dpr : ℚ) (vp : EViewport) : Bool :=
  let d := displayedSize vp.canvas dpr
  !(d.1 = 0 ∨ d.2 = 0) && !(d.1 = (vp.canvas.width : ℤ) ∧ d.2 = (vp.canvas.height : ℤ))

/-- Modelled from the spec: `render()` on the base engine marks every
viewport dirty and, when the scheduler is idle, registers one frame
callback (state `FramePending`). -/
def renderAll (e : Engine) : Engine :=
  { e with
    needsRender := e.viewports.map (fun vp => vp.id)
    animationFrameSet := true }

/-- Embeds `_resizeVTKViewports` (ContextPoolRenderingEngine): collect the
viewports needing a resize; bail out if none, and defer (mutating nothing)
if a frame is already scheduled; otherwise clamp each displayed size to
the minimum, apply `_resize`, restore cameras and optionally render. -/
def resizeVTKViewports (minSize : ℕ) (dpr : ℚ) (e : Engine)
    (keepCamera : Bool) (immediate : Bool) : Engine :=
  let vtk := e.viewports.filter (fun vp => !usesCustomPipeline vp.vtype)
  let needing := vtk.filter (needsResize dpr)
  if needing.isEmpty then e
  else if e.animationFrameSet then e
  else
    let e1 := needing.foldl
      (fun acc vp =>
        acc.updateViewport vp.id (fun v =>
          { v with
            sWidth := (max (minSize : ℤ) (displayedSize v.canvas dpr).1).toNat
            sHeight := (max (minSize : ℤ) (displayedSize v.canvas dpr).2).toNat }))
      e
    let e2 := resizeHelper e1 (vtk.map (fun vp => vp.id))
    let e3 := (vtk.map (fun vp => vp.id)).foldl
      (fun acc vid => acc.updateViewport vid (resizeCameraStep keepCamera))
      e2
    if immediate then renderAll e3 else e3

/-! ### Concrete states used by counterexamples and witnesses -/

/-- An empty ECG viewport holding a previously set image id. -/
def exSt8 : ECGState :=
  { imageId := some "old", channels := [], hasWaveformData := false,
    numberOfSamples := 0, samplingFrequency := 0, ecgWidth := 0, ecgHeight := 0,
    channelScale := 0, panWorldX := 0, panWorldY := 0, parallelScale := 1,
    canvasOffsetW := 300, canvasOffsetH := 200 }

/-- An ecg metadata module whose waveform record carries none of the four
recognized data-source forms. -/
def exBadModule : EcgModuleM :=
  ⟨2, 100, 500, 16, "SS", [some "Channel 1", some "Channel 2"],
    ⟨none, none, none, none⟩⟩

/-- A stack viewport whose on-screen canvas currently displays at 0×0. -/
def exVp2 : EViewport :=
  { id := "A", vtype := VType.stack,
    canvas := { width := 100, height := 100, clientWidth := 0, clientHeight := 0,
                aspectW := 100, aspectH := 100 },
    sWidth := 100, sHeight := 100, sx := 0, sy := 0,
    camera := ⟨1, false, 0⟩, displayArea := false, rendered := false }

/-- Engine with the zero-sized viewport dirty and a frame callback firing. -/
def exEngine2 : Engine :=
  { viewports := [exVp2], needsRender := ["A"], animationFrameSet := true,
    pool := { count := 1, assignments := [("A", 0)], sizes := [("A", 100, 100)] },
    contexts := [⟨100, 100, [⟨"A", false, 0, 0, 1, 1⟩]⟩],
    widgets := [], useCPURendering := false }

/-- The frame-callback result on `exEngine2` (the callback succeeds). -/
def exOut2 : Engine × List (Option String) :=
  (renderFlaggedViewports 10 exEngine2).toOption.getD (exEngine2, [])

/-- A stack viewport displayed at 20×20 while its canvas backing store is
still 10×10, so a resize is pending. -/
def exVp5 : EViewport :=
  { id := "B", vtype := VType.stack,
    canvas := { width := 10, height := 10, clientWidth := 20, clientHeight := 20,
                aspectW := 10, aspectH := 10 },
    sWidth := 10, sHeight := 10, sx := 0, sy := 0,
    camera := ⟨7, false, 0⟩, displayArea := false, rendered := false }

/-- Engine with a frame in flight (scheduler `FramePending`), an empty
dirty set, and `exVp5` waiting for a resize. -/
def exEngine5 : Engine :=
  { viewports := [exVp5], needsRender := [], animationFrameSet := true,
    pool := { count := 1, assignments := [("B", 0)], sizes := [("B", 10, 10)] },
    contexts := [⟨10, 10, [⟨"B", false, 0, 0, 1, 1⟩]⟩],
    widgets := [], useCPURendering := false }

/-- A healthy 40×30 stack viewport ready to render. -/
def exVp7 : EViewport :=
  { id := "A", vtype := VType.stack,
    canvas := { width := 40, height := 30, clientWidth := 40, clientHeight := 30,
                aspectW := 40, aspectH := 30 },
    sWidth := 40, sHeight := 30, sx := 0, sy := 0,
    camera := ⟨0, false, 0⟩, displayArea := false, rendered := false }

/-- Engine hosting `exVp7` on context 0 together with one widget renderer
owned by that same viewport. -/
def exEngine7 : Engine :=
  { viewports := [exVp7], needsRender := ["A"], animationFrameSet := true,
    pool := { count := 1, assignments := [("A", 0)], sizes := [("A", 40, 30)] },
    contexts := [⟨40, 30, [⟨"A", false, 0, 0, 1, 1⟩]⟩],
    widgets := [("A", false)], useCPURendering := false }

/-- Two-channel ECG state used to instantiate the visibility claim: base
record before the scale/height fields are made consistent. -/
def exSt4base : ECGState :=
  { imageId := none,
    channels := [⟨"I", [3, -2], true, -2, 3⟩, ⟨"II", [5, 0], true, 0, 5⟩],
    hasWaveformData := true, numberOfSamples := 2, samplingFrequency := 1,
    ecgWidth := 30, ecgHeight := 0, channelScale := 0,
    panWorldX := 0, panWorldY := 0, parallelScale := 1,
    canvasOffsetW := 3, canvasOffsetH := 2 }

/-- `exSt4base` with `channelScale` and `ecgHeight` set to the values the
viewport itself would maintain. -/
def exSt4 : ECGState :=
  { exSt4base with
    channelScale := computeChannelScale exSt4base,
    ecgHeight := recalculateHeight exSt4base.channels (computeChannelScale exSt4base) }

/-- One-channel loaded ECG state used to instantiate the round-trip claim:
its single band has itemHeight `25/2`, yOffset `35/2`, baseline `27/2`. -/
def exSt3 : ECGState :=
  { imageId := none, channels := [⟨"I", [3, -2], true, -2, 3⟩],
    hasWaveformData := true, numberOfSamples := 2, samplingFrequency := 1,
    ecgWidth := 10, ecgHeight := 0, channelScale := 2,
    panWorldX := 0, panWorldY := 0, parallelScale := 1,
    canvasOffsetW := 3, canvasOffsetH := 2 }
end S2P

namespace S2P

/-! ### Theorems -/

theorem ite_lt_eq_min (a mn : ℤ) : (if a < mn then a else mn) = min mn a := by
  rcases lt_or_le a mn with h | h
  · rw [if_pos h, min_eq_right h.le]
  · rw [if_neg (not_lt.mpr h), min_eq_left h]

theorem ite_gt_eq_max (a mx : ℤ) : (if mx < a then a else mx) = max mx a := by
  rcases lt_or_le mx a with h | h
  · rw [if_pos h, max_eq_right h.le]
  · rw [if_neg (not_lt.mpr h), max_eq_left h]

theorem computeMinMax_foldl (l : List ℤ) :
    computeMinMax l = (l.foldl min 0, l.foldl max 0) := by
  suffices h : ∀ mn mx : ℤ,
      l.foldl (fun mm d =>
        (if d < mm.1 then d else mm.1, if mm.2 < d then d else mm.2)) (mn, mx) =
        (l.foldl min mn, l.foldl max mx) from h 0 0
  induction l with
  | nil => intro mn mx; rfl
  | cons a t ih =>
    intro mn mx
    simp only [List.foldl_cons]
    rw [ite_lt_eq_min, ite_gt_eq_max]
    exact ih (min mn a) (max mx a)

theorem foldl_min_init (t : List ℤ) :
    ∀ a b : ℤ, t.foldl min (min b a) = min b (t.foldl min a) := by
  induction t with
  | nil => intro a b; rfl
  | cons x t ih =>
    intro a b
    simp only [List.foldl_cons]
    rw [min_assoc, ih (min a x) b]

theorem foldl_max_init (t : List ℤ) :
    ∀ a b : ℤ, t.foldl max (max b a) = max b (t.foldl max a) := by
  induction t with
  | nil => intro a b; rfl
  | cons x t ih =>
    intro a b
    simp only [List.foldl_cons]
    rw [max_assoc, ih (max a x) b]

/-- C10: the cached channel minimum is `min 0` of the true minimum and the
cached maximum is `max 0` of the true maximum (both `0` on an empty
buffer), so `min ≤ 0 ≤ max` always holds and the cached amplitude range
always includes zero. -/
theorem C10_cached_minmax (l : List ℤ) :
    (computeMinMax l).1 ≤ 0 ∧ 0 ≤ (computeMinMax l).2 ∧
    (computeMinMax l).1 = min 0 (l.min?.getD 0) ∧
    (computeMinMax l).2 = max 0 (l.max?.getD 0) ∧
    computeMinMax [] = ((0 : ℤ), (0 : ℤ)) := by
  have hmin : (computeMinMax l).1 = min 0 (l.min?.getD 0) := by
    rw [computeMinMax_foldl]
    cases l with
    | nil => simp
    | cons a t =>
      show (a :: t).foldl min 0 = min 0 ((a :: t).min?.getD 0)
      rw [show (a :: t).min? = some (t.foldl min a) from rfl]
      simp only [Option.getD_some, List.foldl_cons]
      rw [show (min 0 a) = min 0 a from rfl, foldl_min_init]
  have hmax : (computeMinMax l).2 = max 0 (l.max?.getD 0) := by
    rw [computeMinMax_foldl]
    cases l with
    | nil => simp
    | cons a t =>
      show (a :: t).foldl max 0 = max 0 ((a :: t).max?.getD 0)
      rw [show (a :: t).max? = some (t.foldl max a) from rfl]
      simp only [Option.getD_some, List.foldl_cons]
      rw [foldl_max_init]
  refine ⟨?_, ?_, hmin, hmax, rfl⟩
  · rw [hmin]; exact min_le_left _ _
  · rw [hmax]; exact le_max_left _ _

theorem addVtkjs_stack (N : ℕ) (e : CPEngine) (vid : String) :
    (addVtkjsDrivenViewport N e vid VType.stack).1 =
      ⟨e.viewports ++ [(vid, VType.stack)],
        e.assignments ++ [(vid, e.viewports.length % N)]⟩ := by
  simp [addVtkjsDrivenViewport]

theorem enable_fold_prefix (N : ℕ) :
    ∀ (entries : List (String × VType)) (e : CPEngine), ∃ tail,
      ((entries.foldl (fun e p => (addVtkjsDrivenViewport N e p.1 p.2).1) e).assignments) =
        e.assignments ++ tail := by
  intro entries
  induction entries with
  | nil => intro e; exact ⟨[], by simp⟩
  | cons p rest ih =>
    intro e
    obtain ⟨tail, htail⟩ := ih (addVtkjsDrivenViewport N e p.1 p.2).1
    refine ⟨(p.1, if p.2 = VType.stack then e.viewports.length % N else 0) :: tail, ?_⟩
    rw [List.foldl_cons, htail]
    have : (addVtkjsDrivenViewport N e p.1 p.2).1.assignments =
        e.assignments ++ [(p.1, if p.2 = VType.stack then e.viewports.length % N else 0)] := by
      cases p.2 <;> simp [addVtkjsDrivenViewport]
    rw [this, List.append_assoc]
    rfl

theorem enable_fold_stack (N : ℕ) :
    ∀ (entries : List (String × VType)) (e : CPEngine),
      (∀ p ∈ entries, p.2 = VType.stack) → ∀ k, k < entries.length →
      ((entries.foldl (fun e p => (addVtkjsDrivenViewport N e p.1 p.2).1) e).assignments)[e.assignments.length + k]? =
        some ((entries[k]?.getD ("", VType.stack)).1, (e.viewports.length + k) % N) := by
  intro entries
  induction entries with
  | nil => intro e _ k hk; exact absurd hk (by simp)
  | cons p rest ih =>
    intro e hall k hk
    have hp : p.2 = VType.stack := hall p (List.mem_cons_self p rest)
    have hstep : (addVtkjsDrivenViewport N e p.1 p.2).1 =
        ⟨e.viewports ++ [(p.1, VType.stack)],
          e.assignments ++ [(p.1, e.viewports.length % N)]⟩ := by
      rw [show p.2 = VType.stack from hp]
      exact addVtkjs_stack N e p.1
    cases k with
    | zero =>
      obtain ⟨tail, htail⟩ :=
        enable_fold_prefix N rest (addVtkjsDrivenViewport N e p.1 p.2).1
      rw [List.foldl_cons, htail, hstep]
      simp only []
      rw [List.append_assoc, List.getElem?_append_right (Nat.le_add_right _ _)]
      simp
    | succ k =>
      have hk' : k < rest.length := by
        simpa using Nat.lt_of_succ_lt_succ hk
      have h2 := ih (addVtkjsDrivenViewport N e p.1 p.2).1
        (fun q hq => hall q (List.mem_cons_of_mem p hq)) k hk'
      rw [List.foldl_cons]
      rw [hstep] at h2
      simp only [List.length_append, List.length_cons, List.length_nil,
        Nat.zero_add] at h2
      have hpos : e.assignments.length + (k + 1) = e.assignments.length + 1 + k := by
        omega
      have hvp : e.viewports.length + (k + 1) = e.viewports.length + 1 + k := by
        omega
      rw [hpos, hvp, hstep]
      simpa using h2

/-- C1: with only distributable (stack) viewports enabled, the k-th one is
assigned context `k mod N`; any other supported vtk.js-driven kind is
assigned context 0; and with pool size 2 the sequence A, B, C lands on
contexts 0, 1, 0. -/
theorem C1_context_assignment (N : ℕ) (entries : List (String × VType))
    (hall : ∀ p ∈ entries, p.2 = VType.stack) (k : ℕ) (hk : k < entries.length) :
    (enableViewports N entries).assignments[k]? =
      some ((entries[k]?.getD ("", VType.stack)).1, k % N) ∧
    (∀ (e : CPEngine) (vid : String) (t : VType), t ≠ VType.stack →
      (addVtkjsDrivenViewport N e vid t).1.assignments.getLast? = some (vid, 0)) ∧
    (enableViewports 2
        [("A", VType.stack), ("B", VType.stack), ("C", VType.stack)]).assignments =
      [("A", 0), ("B", 1), ("C", 0)] := by
  refine ⟨?_, ?_, by decide⟩
  · have := enable_fold_stack N entries ⟨[], []⟩ hall k hk
    simpa [enableViewports] using this
  · intro e vid t ht
    have : (addVtkjsDrivenViewport N e vid t).1.assignments =
        e.assignments ++ [(vid, 0)] := by
      cases t <;> simp_all [addVtkjsDrivenViewport]
    rw [this, List.getLast?_concat]

theorem C1_context_assignment_witness :
    (enableViewports 2
        [("A", VType.stack), ("B", VType.stack), ("C", VType.stack)]).assignments[2]? =
      some ("C", 2 % 2) := by
  exact (C1_context_assignment 2
    [("A", VType.stack), ("B", VType.stack), ("C", VType.stack)]
    (by decide) 2 (by decide)).1

theorem hGridUnit_pos (scale : ℚ) : 0 < hGridUnit scale := by
  unfold hGridUnit
  split <;> positivity

theorem mem_gridLinePositions_all (sp extent y : ℚ) :
    y ∈ gridLinePositions sp extent false ↔
      ∃ j : ℕ, 1 ≤ j ∧ (j : ℤ) ≤ ⌊extent / sp⌋ ∧ y = (j : ℚ) * sp := by
  unfold gridLinePositions
  have hfil : (List.range' 1 (⌊extent / sp⌋.toNat)).filter
      (fun h => !false || decide (h % 5 ≠ 0)) = List.range' 1 (⌊extent / sp⌋.toNat) := by
    apply List.filter_eq_self.mpr
    intro a _
    rfl
  rw [hfil, List.mem_map]
  constructor
  · rintro ⟨j, hj, rfl⟩
    rw [List.mem_range'_1] at hj
    exact ⟨j, hj.1, by omega, rfl⟩
  · rintro ⟨j, h1, h2, rfl⟩
    exact ⟨j, List.mem_range'_1.mpr ⟨h1, by omega⟩, rfl⟩

theorem mem_gridLinePositions_minor (sp extent y : ℚ) :
    y ∈ gridLinePositions sp extent true ↔
      ∃ j : ℕ, 1 ≤ j ∧ (j : ℤ) ≤ ⌊extent / sp⌋ ∧ j % 5 ≠ 0 ∧ y = (j : ℚ) * sp := by
  unfold gridLinePositions
  have hfil : (List.range' 1 (⌊extent / sp⌋.toNat)).filter
      (fun h => !true || decide (h % 5 ≠ 0)) =
      (List.range' 1 (⌊extent / sp⌋.toNat)).filter (fun h => decide (h % 5 ≠ 0)) := by
    rfl
  rw [hfil, List.mem_map]
  constructor
  · rintro ⟨j, hj, rfl⟩
    rw [List.mem_filter, List.mem_range'_1] at hj
    exact ⟨j, hj.1.1, by omega, by simpa using hj.2, rfl⟩
  · rintro ⟨j, h1, h2, h5, rfl⟩
    refine ⟨j, ?_, rfl⟩
    rw [List.mem_filter, List.mem_range'_1]
    exact ⟨⟨h1, by omega⟩, by simpa using h5⟩

theorem grid_major_not_minor (sp extent : ℚ) (hsp : 0 < sp) :
    ∀ y ∈ gridLinePositions (sp * 5) extent false,
      y ∉ gridLinePositions sp extent true := by
  intro y hy hmem
  rw [mem_gridLinePositions_all] at hy
  rw [mem_gridLinePositions_minor] at hmem
  obtain ⟨j, hj1, _, rfl⟩ := hy
  obtain ⟨h, hh1, _, hh5, hEq⟩ := hmem
  have hq : (h : ℚ) = (j : ℚ) * 5 := by
    have := mul_right_cancel₀ hsp.ne' (by linarith [hEq] : (h : ℚ) * sp = ((j : ℚ) * 5) * sp)
    exact this
  have : h = j * 5 := by exact_mod_cast hq
  omega

theorem grid_fifth_mem (sp extent : ℚ) (hsp : 0 < sp) (j : ℕ) (h1 : 1 ≤ j)
    (h2 : ((5 * j : ℕ) : ℤ) ≤ ⌊extent / sp⌋) :
    ((5 * j : ℕ) : ℚ) * sp ∈ gridLinePositions (sp * 5) extent false := by
  rw [mem_gridLinePositions_all]
  refine ⟨j, h1, ?_, ?_⟩
  · rw [Int.le_floor] at h2 ⊢
    have h5sp : (0 : ℚ) < sp * 5 := by positivity
    rw [le_div_iff h5sp]
    rw [le_div_iff hsp] at h2
    push_cast at h2 ⊢
    nlinarith
  · push_cast
    ring

/-- C9: the horizontal minor unit starts at 100 and doubles until
`unit * scale` reaches the 8-pixel minimum spacing; horizontal majors sit
at 5× the minor unit; on each axis every fifth position is drawn as a
major line only, never also as a minor line. -/
theorem C9_grid (scale pxWidth pxHeight : ℚ) (hs : 0 < scale) :
    8 ≤ hGridUnit scale * scale ∧
    (hGridUnit scale = 100 ∨ hGridUnit scale / 2 * scale < 8) ∧
    (∃ k : ℕ, hGridUnit scale = 100 * 2 ^ k) ∧
    (drawGrid scale pxWidth pxHeight).majorH =
      gridLinePositions (hGridUnit scale * scale * 5) pxHeight false ∧
    (∀ j : ℕ, 1 ≤ j →
      ((5 * j : ℕ) : ℤ) ≤ ⌊pxHeight / (hGridUnit scale * scale)⌋ →
      ((5 * j : ℕ) : ℚ) * (hGridUnit scale * scale) ∈
          (drawGrid scale pxWidth pxHeight).majorH ∧
        ((5 * j : ℕ) : ℚ) * (hGridUnit scale * scale) ∉
          (drawGrid scale pxWidth pxHeight).minorH) ∧
    (∀ y ∈ (drawGrid scale pxWidth pxHeight).majorH,
      y ∉ (drawGrid scale pxWidth pxHeight).minorH) ∧
    (drawGrid scale pxWidth pxHeight).majorV =
      gridLinePositions (6 * 5) pxWidth false ∧
    (∀ x ∈ (drawGrid scale pxWidth pxHeight).majorV,
      x ∉ (drawGrid scale pxWidth pxHeight).minorV) := by
  have hgd : drawGrid scale pxWidth pxHeight =
      ⟨gridLinePositions (hGridUnit scale * scale) pxHeight true,
        gridLinePositions (hGridUnit scale * scale * 5) pxHeight false,
        gridLinePositions 6 pxWidth true,
        gridLinePositions 30 pxWidth false⟩ := by
    unfold drawGrid
    rw [if_neg (not_le.mpr hs)]
  have hms : 0 < hGridUnit scale * scale := mul_pos (hGridUnit_pos scale) hs
  have hspec : 8 ≤ hGridUnit scale * scale ∧
      (hGridUnit scale = 100 ∨ hGridUnit scale / 2 * scale < 8) ∧
      ∃ k : ℕ, hGridUnit scale = 100 * 2 ^ k := by
    unfold hGridUnit
    rw [dif_pos hs]
    refine ⟨?_, ?_, ⟨Nat.find (hGridExists scale hs), rfl⟩⟩
    · have h := Nat.find_spec (hGridExists scale hs)
      linarith [h, mul_assoc (100 : ℚ) (2 ^ Nat.find (hGridExists scale hs)) scale]
    · rcases Nat.eq_zero_or_pos (Nat.find (hGridExists scale hs)) with h0 | hpos
      · left; rw [h0]; norm_num
      · right
        have hlt : Nat.find (hGridExists scale hs) - 1 < Nat.find (hGridExists scale hs) := by
          omega
        have hmin := Nat.find_min (hGridExists scale hs) hlt
        push_neg at hmin
        have hsplit : (100 : ℚ) * 2 ^ Nat.find (hGridExists scale hs) / 2 =
            100 * 2 ^ (Nat.find (hGridExists scale hs) - 1) := by
          have hk : Nat.find (hGridExists scale hs) =
              (Nat.find (hGridExists scale hs) - 1) + 1 := by omega
          conv_lhs => rw [hk, pow_succ]
          ring
        rw [hsplit]
        linarith
  refine ⟨hspec.1, hspec.2.1, hspec.2.2, by rw [hgd], ?_, ?_, ?_, ?_⟩
  · intro j hj1 hj2
    rw [hgd]
    refine ⟨grid_fifth_mem _ pxHeight hms j hj1 hj2, ?_⟩
    exact grid_major_not_minor _ pxHeight hms _
      (grid_fifth_mem _ pxHeight hms j hj1 hj2)
  · rw [hgd]
    exact grid_major_not_minor _ pxHeight hms
  · rw [hgd]
    norm_num
  · rw [hgd]
    intro x hx
    have h30 : (30 : ℚ) = 6 * 5 := by norm_num
    rw [h30] at hx
    exact grid_major_not_minor 6 pxWidth (by norm_num) x hx

theorem C9_grid_witness :
    (0 : ℚ) < 1 / 100 ∧ 8 ≤ hGridUnit (1 / 100) * (1 / 100) := by
  exact ⟨by norm_num, (C9_grid (1 / 100) 10 20 (by norm_num)).1⟩

/-- C8 counterexample: a load that finds no usable data source does fail,
but it overwrites the current image id before throwing, so the loaded
state is not left entirely unchanged as the claim requires. -/
theorem C8_counterexample :
    (setEcg exSt8 "new" (some exBadModule)).err =
        some "No data source found in WaveformData" ∧
      (setEcg exSt8 "new" (some exBadModule)).state.imageId = some "new" ∧
      exSt8.imageId = some "old" ∧ ("old" : String) ≠ "new" := by
  refine ⟨rfl, rfl, rfl, by decide⟩

/-- C8 (amended): when the provider module carries none of the recognized
source forms, the load fails with the data-source error and every part of
the loaded state except the current image id — channels, waveform data,
content dimensions, scale, camera — is unchanged; the image id is
overwritten with the new id before the throw. -/
theorem C8_failed_load (st : ECGState) (imageId : String) (m : EcgModuleM)
    (hv : m.waveformSrc.value = none)
    (hib : m.waveformSrc.inlineBinary = none)
    (hrb : m.waveformSrc.retrieveBulk = none)
    (hbd : m.waveformSrc.bulkDataURI = none) :
    (setEcg st imageId (some m)).err =
        some "No data source found in WaveformData" ∧
      (setEcg st imageId (some m)).state = { st with imageId := some imageId } := by
  obtain ⟨nc, ns, sf, ba, si, cn, src⟩ := m
  obtain ⟨v, ib, rb, bd⟩ := src
  simp only at hv hib hrb hbd
  subst hv hib hrb hbd
  exact ⟨rfl, rfl⟩

theorem C8_failed_load_witness :
    (setEcg exSt8 "new" (some exBadModule)).state =
      { exSt8 with imageId := some "new" } := by
  exact (C8_failed_load exSt8 "new" exBadModule rfl rfl rfl rfl).2

theorem updateViewport_map {γ : Type} (g : EViewport → γ) (e : Engine)
    (vid : String) (f : EViewport → EViewport) (hf : ∀ vp, g (f vp) = g vp) :
    (e.updateViewport vid f).viewports.map g = e.viewports.map g := by
  show (e.viewports.map fun vp => if vp.id = vid then f vp else vp).map g = _
  rw [List.map_map]
  refine List.map_congr_left fun vp _ => ?_
  by_cases hvp : vp.id = vid <;> simp [Function.comp, hvp, hf]

theorem updateCtx_needsRender (e : Engine) (ci : ℕ) (f : OffCtx → OffCtx) :
    (e.updateCtx ci f).needsRender = e.needsRender := rfl

theorem updateCtx_viewports (e : Engine) (ci : ℕ) (f : OffCtx → OffCtx) :
    (e.updateCtx ci f).viewports = e.viewports := rfl

theorem setDrawFlags_needsRender (e : Engine) (ci : ℕ) (vid : String) :
    (setDrawFlags e ci vid).needsRender = e.needsRender := rfl

theorem setDrawFlags_viewports (e : Engine) (ci : ℕ) (vid : String) :
    (setDrawFlags e ci vid).viewports = e.viewports := rfl

theorem resetDrawFlags_needsRender (e : Engine) (ci : ℕ) :
    (resetDrawFlags e ci).needsRender = e.needsRender := rfl

theorem resetDrawFlags_viewports (e : Engine) (ci : ℕ) :
    (resetDrawFlags e ci).viewports = e.viewports := rfl

theorem resizeOff_needsRender (e : Engine) (vp : EViewport) :
    ((resizeOffScreenCanvasForViewport e vp).1).needsRender = e.needsRender := by
  unfold resizeOffScreenCanvasForViewport
  split
  · rfl
  · dsimp only
    split
    · split <;> rfl
    · rfl

theorem resizeOff_viewports (e : Engine) (vp : EViewport) :
    ((resizeOffScreenCanvasForViewport e vp).1).viewports = e.viewports := by
  unfold resizeOffScreenCanvasForViewport
  split
  · rfl
  · dsimp only
    split
    · split <;> rfl
    · rfl

theorem copyToOnscreen_needsRender (e : Engine) (vid : String) :
    ((copyToOnscreenCanvas e vid).1).needsRender = e.needsRender := by
  unfold copyToOnscreenCanvas
  split <;> rfl

theorem copyToOnscreen_ids (e : Engine) (vid : String) :
    ((copyToOnscreenCanvas e vid).1).viewports.map (fun v => v.id) =
      e.viewports.map (fun v => v.id) := by
  unfold copyToOnscreenCanvas
  split
  · rfl
  · exact updateViewport_map _ e vid _ (fun vp => rfl)

theorem rvwc_skip (minSize : ℕ) (e : Engine) (vp : EViewport) (ci : ℕ)
    (h : vp.canvas.clientWidth = 0 ∨ vp.canvas.clientHeight = 0 ∨
      vp.sWidth < minSize ∨ vp.sHeight < minSize) :
    renderViewportWithContext minSize e vp ci = ⟨e, .ok none, [], none⟩ := by
  unfold renderViewportWithContext
  by_cases h1 : vp.canvas.clientWidth = 0 ∨ vp.canvas.clientHeight = 0
  · rw [if_pos h1]
  · have h2 : vp.sWidth < minSize ∨ vp.sHeight < minSize := by tauto
    rw [if_neg h1, if_pos h2]

theorem rvwc_preserves (minSize : ℕ) (e : Engine) (vp : EViewport) (ci : ℕ) :
    (renderViewportWithContext minSize e vp ci).engine.needsRender = e.needsRender ∧
    (renderViewportWithContext minSize e vp ci).engine.viewports.map (fun v => v.id) =
      e.viewports.map (fun v => v.id) := by
  unfold renderViewportWithContext
  split_ifs with h1 h2 h3 h4 h5
  · exact ⟨rfl, rfl⟩
  · exact ⟨rfl, rfl⟩
  · exact ⟨rfl, rfl⟩
  · exact ⟨rfl, rfl⟩
  all_goals
    refine ⟨?_, ?_⟩
    · show ((copyToOnscreenCanvas _ _).1).needsRender = e.needsRender
      rw [copyToOnscreen_needsRender, resetDrawFlags_needsRender,
        setDrawFlags_needsRender, updateCtx_needsRender, resizeOff_needsRender]
      all_goals exact rfl
    · show ((copyToOnscreenCanvas _ _).1).viewports.map _ = _
      rw [copyToOnscreen_ids, resetDrawFlags_viewports, setDrawFlags_viewports,
        updateCtx_viewports, resizeOff_viewports]
      all_goals exact rfl

theorem pipeline_preserves (minSize : ℕ) (e : Engine) (vp : EViewport) :
    (renderViewportPipeline minSize e vp).engine.needsRender = e.needsRender ∧
    (renderViewportPipeline minSize e vp).engine.viewports.map (fun v => v.id) =
      e.viewports.map (fun v => v.id) := by
  unfold renderViewportPipeline
  split_ifs
  · exact ⟨rfl, rfl⟩
  · exact ⟨rfl, rfl⟩
  · split
    · exact ⟨rfl, rfl⟩
    · exact rvwc_preserves minSize e vp _

theorem updateViewport_needsRender (e : Engine) (vid : String)
    (f : EViewport → EViewport) :
    (e.updateViewport vid f).needsRender = e.needsRender := rfl

theorem removeNeedsRender_needsRender (e : Engine) (vid : String) :
    (e.removeNeedsRender vid).needsRender =
      e.needsRender.filter (fun x => x ≠ vid) := rfl

theorem removeNeedsRender_viewports (e : Engine) (vid : String) :
    (e.removeNeedsRender vid).viewports = e.viewports := rfl

theorem step_facts (minSize : ℕ) (acc : Engine × List (Option String))
    (vid : String) (acc' : Engine × List (Option String))
    (h : renderFlaggedStep minSize acc vid = .ok acc') :
    (∀ w, w ∈ acc'.1.needsRender → w ∈ acc.1.needsRender) ∧
    (vid ∈ acc.1.viewports.map (fun v => v.id) → vid ∉ acc'.1.needsRender) ∧
    acc'.1.viewports.map (fun v => v.id) = acc.1.viewports.map (fun v => v.id) := by
  unfold renderFlaggedStep at h
  rcases hfind : acc.1.viewports.find? (fun vp => vp.id == vid) with _ | vp
  · rw [hfind] at h
    simp only [Except.ok.injEq] at h
    subst h
    refine ⟨fun w hw => hw, fun hin => ?_, rfl⟩
    exfalso
    rw [List.mem_map] at hin
    obtain ⟨v, hv, hvid⟩ := hin
    have := List.find?_eq_none.mp hfind v hv
    simp [hvid] at this
  · rw [hfind] at h
    dsimp only at h
    rcases hout : (renderViewportPipeline minSize acc.1 vp).outcome with s | d
    · rw [hout] at h
      exact absurd h (by simp)
    · rw [hout] at h
      simp only [Except.ok.injEq] at h
      subst h
      have hpres := pipeline_preserves minSize acc.1 vp
      refine ⟨?_, ?_, ?_⟩
      · intro w hw
        rw [removeNeedsRender_needsRender, updateViewport_needsRender,
          hpres.1, List.mem_filter] at hw
        exact hw.1
      · intro _ hmem
        rw [removeNeedsRender_needsRender, List.mem_filter] at hmem
        simp at hmem
      · rw [removeNeedsRender_viewports,
          updateViewport_map (fun v : EViewport => v.id)
            ((renderViewportPipeline minSize acc.1 vp).engine) vid
            (fun v => { v with rendered := true }) (fun v => rfl)]
        exact hpres.2

theorem loop_removes (minSize : ℕ) :
    ∀ (l : List String) (acc out : Engine × List (Option String)),
      renderFlaggedLoop minSize l acc = .ok out →
      ∀ vid, (vid ∈ l ∧ vid ∈ acc.1.viewports.map (fun v => v.id)) ∨
        vid ∉ acc.1.needsRender →
      vid ∉ out.1.needsRender := by
  intro l
  induction l with
  | nil =>
    intro acc out h vid hv
    simp only [renderFlaggedLoop, Except.ok.injEq] at h
    subst h
    rcases hv with ⟨hl, _⟩ | hnot
    · exact absurd hl (List.not_mem_nil vid)
    · exact hnot
  | cons x t ih =>
    intro acc out h vid hv
    unfold renderFlaggedLoop at h
    rcases hstep : renderFlaggedStep minSize acc x with s | acc1
    · rw [hstep] at h
      exact absurd h (by simp)
    · rw [hstep] at h
      obtain ⟨ha, hb, hc⟩ := step_facts minSize acc x acc1 hstep
      rcases hv with ⟨hl, hids⟩ | hnot
      · rcases List.mem_cons.mp hl with rfl | hlt
        · exact ih acc1 out h vid (Or.inr (hb hids))
        · exact ih acc1 out h vid (Or.inl ⟨hlt, by rw [hc]; exact hids⟩)
      · exact ih acc1 out h vid
          (Or.inr (fun hmem => hnot (ha vid hmem)))

/-- C2 (amended): a pass on a viewport whose canvas displays at zero size,
or whose requested render size is below the minimum, is skipped without an
exception and mutates nothing; but when the frame callback completes the
viewport has been removed from the render-dirty set along with every other
processed viewport — it is not retried on a future tick. -/
theorem C2_skip_and_removed :
    (∀ (minSize : ℕ) (e : Engine) (vp : EViewport) (ci : ℕ),
      vp.canvas.clientWidth = 0 ∨ vp.canvas.clientHeight = 0 ∨
        vp.sWidth < minSize ∨ vp.sHeight < minSize →
      renderViewportWithContext minSize e vp ci = ⟨e, .ok none, [], none⟩) ∧
    (∀ (minSize : ℕ) (e : Engine) (out : Engine × List (Option String)),
      renderFlaggedViewports minSize e = .ok out →
      ∀ vid, vid ∈ e.needsRender → vid ∈ e.viewports.map (fun v => v.id) →
      vid ∉ out.1.needsRender) := by
  refine ⟨rvwc_skip, ?_⟩
  intro minSize e out h vid hdirty hids
  have hvp : ∃ vp, vp ∈ e.viewports ∧ vp.id = vid := by
    rw [List.mem_map] at hids
    obtain ⟨v, hv, hvid⟩ := hids
    exact ⟨v, hv, hvid⟩
  obtain ⟨vp, hvpmem, rfl⟩ := hvp
  have hto : vp ∈ e.viewports.filter (fun w => e.needsRender.contains w.id) := by
    rw [List.mem_filter]
    exact ⟨hvpmem, List.elem_iff.mpr hdirty⟩
  unfold renderFlaggedViewports at h
  rw [if_neg (by
    intro hemp
    rw [List.isEmpty_iff] at hemp
    rw [hemp] at hto
    exact List.not_mem_nil vp hto)] at h
  rcases hloop : renderFlaggedLoop minSize
      ((e.viewports.filter (fun w => e.needsRender.contains w.id)).map
        (fun w => w.id)) (e, []) with s | r
  · rw [hloop] at h
    exact absurd h (by simp)
  · rw [hloop] at h
    simp only [Except.ok.injEq] at h
    subst h
    have := loop_removes minSize _ (e, []) r hloop vp.id
      (Or.inl ⟨List.mem_map.mpr ⟨vp, hto, rfl⟩, List.mem_map.mpr ⟨vp, hvpmem, rfl⟩⟩)
    simpa using this

/-- C2 counterexample: on `exEngine2` the zero-sized viewport's pass is
skipped with no exception, yet after the frame callback the dirty set is
empty — the viewport did not stay in the render-dirty set as claimed. -/
theorem C2_counterexample :
    (renderFlaggedViewports 10 exEngine2).toOption.map
        (fun r => (r.1.needsRender, r.2)) = some ([], [none]) := by
  rfl

theorem C2_skip_and_removed_witness :
    renderViewportWithContext 10 exEngine2 exVp2 0 =
        ⟨exEngine2, Except.ok none, [], none⟩ ∧
      "A" ∉ exOut2.1.needsRender :=
  ⟨C2_skip_and_removed.1 10 exEngine2 exVp2 0 (Or.inl rfl),
    C2_skip_and_removed.2 10 exEngine2 exOut2 (by rfl) "A" (by decide) (by decide)⟩

theorem foldl_updateViewport_proj {γ : Type} (proj : EViewport → γ)
    (g : EViewport → EViewport) (hid : ∀ v, (g v).id = v.id)
    (hidem : ∀ v, proj (g (g v)) = proj (g v)) :
    ∀ (needing : List EViewport) (e : Engine),
      ((needing.foldl (fun acc vp => acc.updateViewport vp.id g) e).viewports).map proj =
        e.viewports.map (fun v =>
          if needing.any (fun w => w.id == v.id) then proj (g v) else proj v) := by
  intro needing
  induction needing with
  | nil =>
    intro e
    simp
  | cons x t ih =>
    intro e
    rw [List.foldl_cons, ih]
    show ((e.viewports.map fun v => if v.id = x.id then g v else v).map _) = _
    rw [List.map_map]
    refine List.map_congr_left fun v _ => ?_
    simp only [Function.comp, List.any_cons]
    by_cases hv : v.id = x.id
    · have hbeq : (x.id == v.id) = true := beq_iff_eq.mpr hv.symm
      have hgid : (fun w : EViewport => w.id == (g v).id) = (fun w => w.id == v.id) :=
        funext fun w => by rw [hid]
      rw [if_pos hv, hgid]
      by_cases ht : t.any (fun w => w.id == v.id) = true
      · simp [hbeq, ht, hidem v]
      · simp [hbeq, ht]
    · have hbeq : (x.id == v.id) = false := by
        rw [beq_eq_false_iff_ne]
        exact fun hx => hv hx.symm
      rw [if_neg hv]
      simp [hbeq]

theorem resizeHelperStep_proj (acc : Engine × List ℕ) (vid : String) :
    ((resizeHelperStep acc vid).1).viewports.map
        (fun v => (v.id, v.sWidth, v.sHeight)) =
      acc.1.viewports.map (fun v => (v.id, v.sWidth, v.sHeight)) := by
  unfold resizeHelperStep
  split
  · rfl
  · dsimp only
    split
    · exact updateViewport_map _ acc.1 vid _ (fun v => rfl)
    · rw [updateCtx_viewports]
      exact updateViewport_map _ acc.1 vid _ (fun v => rfl)

theorem foldl_resizeHelperStep_proj :
    ∀ (ids : List String) (acc : Engine × List ℕ),
      (((ids.foldl resizeHelperStep acc).1).viewports).map
          (fun v => (v.id, v.sWidth, v.sHeight)) =
        acc.1.viewports.map (fun v => (v.id, v.sWidth, v.sHeight)) := by
  intro ids
  induction ids with
  | nil => intro acc; rfl
  | cons x t ih =>
    intro acc
    rw [List.foldl_cons, ih, resizeHelperStep_proj]

theorem foldl_sync_viewports :
    ∀ (cis : List ℕ) (e : Engine),
      (cis.foldl syncContainerToMax e).viewports = e.viewports := by
  intro cis
  induction cis with
  | nil => intro e; rfl
  | cons x t ih =>
    intro e
    rw [List.foldl_cons, ih]
    rfl

theorem resizeHelper_proj (e : Engine) (ids : List String) :
    (resizeHelper e ids).viewports.map (fun v => (v.id, v.sWidth, v.sHeight)) =
      e.viewports.map (fun v => (v.id, v.sWidth, v.sHeight)) := by
  unfold resizeHelper
  dsimp only
  rw [foldl_sync_viewports, foldl_resizeHelperStep_proj]

theorem resizeCameraStep_proj (kc : Bool) (v : EViewport) :
    ((resizeCameraStep kc v).id, (resizeCameraStep kc v).sWidth,
        (resizeCameraStep kc v).sHeight) = (v.id, v.sWidth, v.sHeight) := by
  unfold resizeCameraStep
  dsimp only
  split_ifs <;> rfl

theorem foldl_camera_proj (kc : Bool) :
    ∀ (ids : List String) (e : Engine),
      ((ids.foldl (fun acc vid => acc.updateViewport vid (resizeCameraStep kc)) e).viewports).map
          (fun v => (v.id, v.sWidth, v.sHeight)) =
        e.viewports.map (fun v => (v.id, v.sWidth, v.sHeight)) := by
  intro ids
  induction ids with
  | nil => intro e; rfl
  | cons x t ih =>
    intro e
    rw [List.foldl_cons, ih]
    exact updateViewport_map _ e x _ (fun v => resizeCameraStep_proj kc v)

theorem resize_noop_of_frameSet :
    ∀ (minSize : ℕ) (dpr : ℚ) (e : Engine) (kc im : Bool),
      e.animationFrameSet = true → resizeVTKViewports minSize dpr e kc im = e := by
  intro minSize dpr e kc im h
  unfold resizeVTKViewports
  dsimp only
  rw [h]
  simp

theorem exVp5_needsResize : needsResize 1 exVp5 = true := by
  have hr : round (((20 : ℕ) : ℚ) * 1) = (20 : ℤ) := by
    rw [round_eq]
    norm_num
  simp only [needsResize, displayedSize, exVp5, hr]
  decide

/-- C5 (amended): whenever a frame is already in flight the resize call
returns with the engine state entirely unchanged (no geometry, footprint
or camera mutation); the deferred resize is not replayed by the frame
callback — it is applied by the first resize call made while no frame is
pending, using the displayed sizes read at that call. -/
theorem C5_resize_deferred :
    (∀ (minSize : ℕ) (dpr : ℚ) (e : Engine) (kc im : Bool),
      e.animationFrameSet = true → resizeVTKViewports minSize dpr e kc im = e) ∧
    (∀ (minSize : ℕ) (dpr : ℚ) (e : Engine) (kc im : Bool),
      e.animationFrameSet = false →
      (resizeVTKViewports minSize dpr e kc im).viewports.map
          (fun v => (v.id, v.sWidth, v.sHeight)) =
        e.viewports.map (fun v =>
          if ((e.viewports.filter (fun vp => !usesCustomPipeline vp.vtype)).filter
              (needsResize dpr)).any (fun w => w.id == v.id) then
            (v.id, (max (minSize : ℤ) (displayedSize v.canvas dpr).1).toNat,
              (max (minSize : ℤ) (displayedSize v.canvas dpr).2).toNat)
          else (v.id, v.sWidth, v.sHeight))) := by
  constructor
  · exact resize_noop_of_frameSet
  · intro minSize dpr e kc im h
    unfold resizeVTKViewports
    dsimp only
    by_cases hemp : (((e.viewports.filter (fun vp => !usesCustomPipeline vp.vtype)).filter
        (needsResize dpr)).isEmpty) = true
    · rw [if_pos hemp]
      rw [List.isEmpty_iff] at hemp
      rw [hemp]
      simp
    · rw [if_neg hemp, h, if_neg (by simp)]
      have him : ∀ e' : Engine,
          (if im = true then renderAll e' else e').viewports = e'.viewports := by
        intro e'
        cases im <;> rfl
      rw [him, foldl_camera_proj, resizeHelper_proj,
        foldl_updateViewport_proj (fun v => (v.id, v.sWidth, v.sHeight))
          (fun v =>
            { v with
              sWidth := (max (minSize : ℤ) (displayedSize v.canvas dpr).1).toNat
              sHeight := (max (minSize : ℤ) (displayedSize v.canvas dpr).2).toNat })
          (fun v => rfl) (fun v => rfl)]

/-- C5 counterexample: with a frame in flight, calling resize twice and
then letting the frame callback complete applies the resize zero times —
not exactly once — and the frame callback itself does not retry it: the
viewport geometry, canvas and camera are all unchanged afterwards. -/
theorem C5_counterexample :
    renderFlaggedViewports 1
        (resizeVTKViewports 1 1 (resizeVTKViewports 1 1 exEngine5 true true)
          true true) =
      .ok ({ exEngine5 with animationFrameSet := false }, []) ∧
    exVp5.sWidth = 10 ∧ needsResize 1 exVp5 = true ∧
    exEngine5.animationFrameSet = true := by
  have h1 : resizeVTKViewports 1 1 exEngine5 true true = exEngine5 :=
    resize_noop_of_frameSet 1 1 exEngine5 true true rfl
  refine ⟨?_, rfl, exVp5_needsResize, rfl⟩
  rw [h1, h1]
  rfl

theorem C5_resize_deferred_witness :
    resizeVTKViewports 1 1 exEngine5 true true = exEngine5 ∧
    (resizeVTKViewports 1 1 { exEngine5 with animationFrameSet := false } true
        false).viewports.map (fun v => (v.id, v.sWidth, v.sHeight)) =
      [("B", 20, 20)] := by
  constructor
  · exact C5_resize_deferred.1 1 1 exEngine5 true true rfl
  · rw [C5_resize_deferred.2 1 1 { exEngine5 with animationFrameSet := false }
      true false rfl]
    have hr : displayedSize exVp5.canvas 1 = (20, 20) := by
      simp only [displayedSize, exVp5]
      rw [round_eq]
      norm_num
    simp [exEngine5, usesCustomPipeline, exVp5_needsResize, hr]
    decide

theorem updateCtx_getElem (e : Engine) (ci : ℕ) (f : OffCtx → OffCtx) (i : ℕ) :
    (e.updateCtx ci f).contexts[i]? =
      if i = ci then (e.contexts[i]?).map f else e.contexts[i]? := by
  show ((e.contexts.enum).map fun p => if p.1 = ci then f p.2 else p.2)[i]? = _
  rw [List.getElem?_map, List.getElem?_enum]
  cases h : e.contexts[i]? with
  | none => simp
  | some c => by_cases hic : i = ci <;> simp [hic]

theorem updateCtx_getD (e : Engine) (ci : ℕ) (f : OffCtx → OffCtx)
    (d : OffCtx) (hci : ci < e.contexts.length) :
    (e.updateCtx ci f).contexts.getD ci d = f (e.contexts.getD ci d) := by
  rw [List.getD_eq_getElem?_getD, List.getD_eq_getElem?_getD,
    updateCtx_getElem, if_pos rfl]
  rw [List.getElem?_eq_getElem hci]
  rfl

theorem updateCtx_length (e : Engine) (ci : ℕ) (f : OffCtx → OffCtx) :
    (e.updateCtx ci f).contexts.length = e.contexts.length := by
  show ((e.contexts.enum).map _).length = _
  rw [List.length_map, List.enum_length]

theorem updateViewportSize_assignments (p : ContextPool) (vid : String) (w h : ℕ) :
    ((p.updateViewportSize vid w h).1).assignments = p.assignments := by
  unfold ContextPool.updateViewportSize
  split
  · rfl
  · rfl

theorem updateViewportSize_contextIndexFor (p : ContextPool) (vid v2 : String)
    (w h : ℕ) :
    ((p.updateViewportSize vid w h).1).contextIndexFor v2 = p.contextIndexFor v2 := by
  unfold ContextPool.contextIndexFor
  rw [updateViewportSize_assignments]

theorem resizeOff_pool_assignments (e : Engine) (vp : EViewport) :
    ((resizeOffScreenCanvasForViewport e vp).1).pool.assignments =
      e.pool.assignments := by
  unfold resizeOffScreenCanvasForViewport
  split
  · rfl
  · dsimp only
    split
    · split
      · exact updateViewportSize_assignments _ _ _ _
      · exact updateViewportSize_assignments _ _ _ _
    · exact updateViewportSize_assignments _ _ _ _

theorem resizeOff_contexts_length (e : Engine) (vp : EViewport) :
    ((resizeOffScreenCanvasForViewport e vp).1).contexts.length =
      e.contexts.length := by
  unfold resizeOffScreenCanvasForViewport
  split
  · rfl
  · dsimp only
    split
    · split
      · rfl
      · exact updateCtx_length _ _ _
    · rfl

theorem updateCtx_getD_renderers (e : Engine) (ci i : ℕ) (f : OffCtx → OffCtx)
    (hf : ∀ c, (f c).renderers = c.renderers) (d : OffCtx) :
    ((e.updateCtx ci f).contexts.getD i d).renderers =
      (e.contexts.getD i d).renderers := by
  rw [List.getD_eq_getElem?_getD, List.getD_eq_getElem?_getD, updateCtx_getElem]
  by_cases hic : i = ci
  · rw [if_pos hic]
    cases h : e.contexts[i]? with
    | none => simp
    | some c => simp [hf]
  · rw [if_neg hic]

theorem resizeOff_renderers (e : Engine) (vp : EViewport) (ci : ℕ) (d : OffCtx) :
    (((resizeOffScreenCanvasForViewport e vp).1).contexts.getD ci d).renderers =
      (e.contexts.getD ci d).renderers := by
  unfold resizeOffScreenCanvasForViewport
  split
  · rfl
  · dsimp only
    split
    · split
      · rfl
      · dsimp only
        apply updateCtx_getD_renderers
        intro c
        rfl
    · rfl

theorem copyToOnscreen_pool (e : Engine) (vid : String) :
    ((copyToOnscreenCanvas e vid).1).pool = e.pool := by
  unfold copyToOnscreenCanvas
  split <;> rfl

theorem copyToOnscreen_contexts (e : Engine) (vid : String) :
    ((copyToOnscreenCanvas e vid).1).contexts = e.contexts := by
  unfold copyToOnscreenCanvas
  split <;> rfl

theorem copyToOnscreen_widgets (e : Engine) (vid : String) :
    ((copyToOnscreenCanvas e vid).1).widgets = e.widgets := by
  unfold copyToOnscreenCanvas
  split <;> rfl

theorem resizeOff_trace_class (e : Engine) (vp : EViewport) :
    ∀ ev ∈ (resizeOffScreenCanvasForViewport e vp).2,
      ∃ a b c, ev = REvent.offscreenResize a b c := by
  unfold resizeOffScreenCanvasForViewport
  split
  · intro ev hev
    exact absurd hev (List.not_mem_nil ev)
  · dsimp only
    split
    · split
      · intro ev hev
        exact absurd hev (List.not_mem_nil ev)
      · intro ev hev
        rw [List.mem_singleton] at hev
        exact ⟨_, _, _, hev⟩
    · intro ev hev
      exact absurd hev (List.not_mem_nil ev)

theorem copy_trace_eq (e : Engine) (vid : String) (vp : EViewport)
    (hfind : e.viewports.find? (fun v => v.id == vid) = some vp) :
    (copyToOnscreenCanvas e vid).2 =
      (if (updateCanvasToExtent vp.canvas vp.sWidth vp.sHeight).2 then
        [REvent.onscreenMutate vid vp.sWidth vp.sHeight] else []) ++
      [REvent.copy vid
        (((e.pool.maxSizeFor ((e.pool.contextIndexFor vid).getD 0)).2 : ℤ) -
          (vp.sHeight : ℤ))
        vp.sWidth vp.sHeight] := by
  unfold copyToOnscreenCanvas
  rw [hfind]
  rfl

theorem updateCtx_pool (e : Engine) (ci : ℕ) (f : OffCtx → OffCtx) :
    (e.updateCtx ci f).pool = e.pool := rfl

theorem setDrawFlags_pool (e : Engine) (ci : ℕ) (vid : String) :
    (setDrawFlags e ci vid).pool = e.pool := rfl

theorem resetDrawFlags_pool (e : Engine) (ci : ℕ) :
    (resetDrawFlags e ci).pool = e.pool := rfl

theorem contextIndexFor_congr (p q : ContextPool) (vid : String)
    (h : p.assignments = q.assignments) :
    p.contextIndexFor vid = q.contextIndexFor vid := by
  unfold ContextPool.contextIndexFor
  rw [h]

/-- C6: in a successful GPU render pass the event trace splits around the
single draw: every offscreen surface resize and sub-renderer rectangle
update comes strictly before the draw, every on-screen canvas mutation and
every copy strictly after it, and the copy reads the surface sub-rectangle
starting at vertical offset `maxSurfaceHeight - viewportHeight`. -/
theorem C6_pass_ordering (minSize : ℕ) (e : Engine) (vp : EViewport) (ci : ℕ)
    (h1 : vp.canvas.clientWidth ≠ 0) (h2 : vp.canvas.clientHeight ≠ 0)
    (h3 : minSize ≤ vp.sWidth) (h4 : minSize ≤ vp.sHeight)
    (h5 : usesCustomPipeline vp.vtype = false)
    (h6 : e.useCPURendering = false)
    (h7 : e.pool.contextIndexFor vp.id = some ci)
    (h8 : e.viewports.find? (fun v => v.id == vp.id) = some vp) :
    ∃ pre post,
      (renderViewportWithContext minSize e vp ci).trace =
        pre ++ REvent.draw :: post ∧
      (∀ ev ∈ pre, (∃ a b c, ev = REvent.offscreenResize a b c) ∨
        (∃ v, ev = REvent.setRect v)) ∧
      (∀ ev ∈ post, (∃ v w h, ev = REvent.onscreenMutate v w h) ∨
        (∃ v y w h, ev = REvent.copy v y w h)) ∧
      (∀ v y w h,
        REvent.copy v y w h ∈ (renderViewportWithContext minSize e vp ci).trace →
        v = vp.id ∧
        y = ((((renderViewportWithContext minSize e vp ci).engine.pool.maxSizeFor
          ci).2 : ℤ) - (vp.sHeight : ℤ)) ∧ w = vp.sWidth ∧ h = vp.sHeight) := by
  have hc1 : ¬(vp.canvas.clientWidth = 0 ∨ vp.canvas.clientHeight = 0) := by
    tauto
  have hc2 : ¬(vp.sWidth < minSize ∨ vp.sHeight < minSize) := by omega
  have hc3 : ¬(usesCustomPipeline vp.vtype = true) := by simp [h5]
  have hc4 : ¬(e.useCPURendering = true) := by simp [h6]
  obtain ⟨tr1, E5, htr, hcls, hE5v, hE5pool, hengpool, hengine⟩ :
      ∃ tr1 E5,
        (renderViewportWithContext minSize e vp ci).trace =
          tr1 ++ [REvent.setRect vp.id] ++ [REvent.draw] ++
            (copyToOnscreenCanvas E5 vp.id).2 ∧
        (∀ ev ∈ tr1, ∃ a b c, ev = REvent.offscreenResize a b c) ∧
        E5.viewports = e.viewports ∧
        E5.pool.contextIndexFor vp.id = some ci ∧
        (renderViewportWithContext minSize e vp ci).engine.pool = E5.pool ∧
        (renderViewportWithContext minSize e vp ci).engine =
          (copyToOnscreenCanvas E5 vp.id).1 := by
    unfold renderViewportWithContext
    rw [if_neg hc1, if_neg hc2, if_neg hc3, if_neg hc4]
    dsimp only
    refine ⟨_, _, rfl, ?_, ?_, ?_, ?_, rfl⟩
    · exact resizeOff_trace_class _ vp
    · rw [resetDrawFlags_viewports, setDrawFlags_viewports, updateCtx_viewports,
        resizeOff_viewports]
      split <;> rfl
    · rw [resetDrawFlags_pool, setDrawFlags_pool, updateCtx_pool]
      rw [contextIndexFor_congr _ e.pool vp.id]
      · exact h7
      · rw [resizeOff_pool_assignments]
        split <;> rfl
    · rw [copyToOnscreen_pool]
  have hfind5 : E5.viewports.find? (fun v => v.id == vp.id) = some vp := by
    rw [hE5v]
    exact h8
  have hcp := copy_trace_eq E5 vp.id vp hfind5
  refine ⟨tr1 ++ [REvent.setRect vp.id], (copyToOnscreenCanvas E5 vp.id).2,
    ?_, ?_, ?_, ?_⟩
  · rw [htr]
    simp [List.append_assoc]
  · intro ev hev
    rcases List.mem_append.mp hev with hl | hr
    · exact Or.inl (hcls ev hl)
    · rw [List.mem_singleton] at hr
      exact Or.inr ⟨vp.id, hr⟩
  · intro ev hev
    rw [hcp] at hev
    rcases List.mem_append.mp hev with hl | hr
    · rcases hl2 : (updateCanvasToExtent vp.canvas vp.sWidth vp.sHeight).2 with _ | _
      · rw [hl2] at hl
        simp at hl
      · rw [hl2] at hl
        simp only [if_pos, List.mem_singleton] at hl
        exact Or.inl ⟨vp.id, vp.sWidth, vp.sHeight, hl⟩
    · rw [List.mem_singleton] at hr
      exact Or.inr ⟨_, _, _, _, hr⟩
  · intro v y w h hmem
    rw [htr] at hmem
    simp only [List.append_assoc, List.mem_append, List.mem_singleton] at hmem
    rcases hmem with hm | hm | hm | hm
    · obtain ⟨a, b, c, habc⟩ := hcls _ hm
      exact absurd habc (by simp)
    · exact absurd hm (by simp)
    · exact absurd hm (by simp)
    · rw [hcp] at hm
      rcases List.mem_append.mp hm with hl | hr
      · rcases hl2 : (updateCanvasToExtent vp.canvas vp.sWidth vp.sHeight).2 with _ | _
        · rw [hl2] at hl
          simp at hl
        · rw [hl2] at hl
          simp only [if_pos, List.mem_singleton] at hl
          exact absurd hl (by simp)
      · rw [List.mem_singleton] at hr
        injection hr with e1 e2 e3 e4
        subst e1 e2 e3 e4
        refine ⟨rfl, ?_, rfl, rfl⟩
        rw [hengpool, hE5pool]
        rfl

theorem C6_pass_ordering_witness :
    ∃ pre post,
      (renderViewportWithContext 10 exEngine7 exVp7 0).trace =
        pre ++ REvent.draw :: post ∧
      (∀ ev ∈ pre, (∃ a b c, ev = REvent.offscreenResize a b c) ∨
        (∃ v, ev = REvent.setRect v)) ∧
      (∀ ev ∈ post, (∃ v w h, ev = REvent.onscreenMutate v w h) ∨
        (∃ v y w h, ev = REvent.copy v y w h)) ∧
      (∀ v y w h,
        REvent.copy v y w h ∈ (renderViewportWithContext 10 exEngine7 exVp7 0).trace →
        v = exVp7.id ∧
        y = ((((renderViewportWithContext 10 exEngine7 exVp7 0).engine.pool.maxSizeFor
          0).2 : ℤ) - (exVp7.sHeight : ℤ)) ∧ w = exVp7.sWidth ∧ h = exVp7.sHeight) := by
  exact C6_pass_ordering 10 exEngine7 exVp7 0 (by decide) (by decide) (by decide)
    (by decide) rfl rfl rfl rfl

theorem setDrawFlags_flagpairs (e : Engine) (ci : ℕ) (vid : String) (d : OffCtx)
    (hci : ci < e.contexts.length) :
    (((setDrawFlags e ci vid).contexts.getD ci d).renderers).map
        (fun r => (r.id, r.draw)) =
      ((e.contexts.getD ci d).renderers).map
        (fun r => (r.id, decide (r.id = vid))) := by
  unfold setDrawFlags
  dsimp only
  rw [updateCtx_getD _ _ _ _ hci]
  dsimp only
  rw [List.map_map]
  rfl

theorem setDrawFlags_widgets (e : Engine) (ci : ℕ) (vid : String) :
    (setDrawFlags e ci vid).widgets =
      e.widgets.map (fun w => (w.1, decide (w.1 = vid))) := rfl

theorem resetDrawFlags_renderers (e : Engine) (ci : ℕ) (d : OffCtx)
    (hci : ci < e.contexts.length) :
    ((resetDrawFlags e ci).contexts.getD ci d).renderers =
      ((e.contexts.getD ci d).renderers).map (fun r => { r with draw := false }) := by
  unfold resetDrawFlags
  dsimp only
  rw [updateCtx_getD _ _ _ _ hci]

theorem resetDrawFlags_widgets (e : Engine) (ci : ℕ) :
    (resetDrawFlags e ci).widgets = e.widgets.map (fun w => (w.1, false)) := rfl

theorem setDrawFlags_length (e : Engine) (ci : ℕ) (vid : String) :
    (setDrawFlags e ci vid).contexts.length = e.contexts.length := by
  unfold setDrawFlags
  dsimp only
  exact updateCtx_length _ _ _

theorem resetDrawFlags_length (e : Engine) (ci : ℕ) :
    (resetDrawFlags e ci).contexts.length = e.contexts.length := by
  unfold resetDrawFlags
  dsimp only
  exact updateCtx_length _ _ _

theorem filter_id_eq (vid : String) :
    ∀ (ids : List String), ids.Nodup → vid ∈ ids →
      ids.filter (fun x => decide (x = vid)) = [vid] := by
  intro ids
  induction ids with
  | nil =>
    intro _ hmem
    exact absurd hmem (List.not_mem_nil vid)
  | cons a t ih =>
    intro hnd hmem
    rw [List.nodup_cons] at hnd
    rcases List.mem_cons.mp hmem with h1 | hmt
    · subst h1
      rw [List.filter_cons_of_pos (by simp)]
      have ht : t.filter (fun x => decide (x = vid)) = [] := by
        rw [List.filter_eq_nil_iff]
        intro x hx
        simp only [decide_eq_true_eq]
        intro hxa
        exact hnd.1 (hxa ▸ hx)
      rw [ht]
    · rw [List.filter_cons_of_neg (by
        simp only [decide_eq_true_eq]
        intro h
        exact hnd.1 (h ▸ hmt))]
      exact ih hnd.2 hmt

theorem updateCtx_widgets (e : Engine) (ci : ℕ) (f : OffCtx → OffCtx) :
    (e.updateCtx ci f).widgets = e.widgets := rfl

theorem resizeOff_widgets (e : Engine) (vp : EViewport) :
    ((resizeOffScreenCanvasForViewport e vp).1).widgets = e.widgets := by
  unfold resizeOffScreenCanvasForViewport
  split
  · rfl
  · dsimp only
    split
    · split
      · rfl
      · rfl
    · rfl

theorem pass_flagsR (E2 : Engine) (vp : EViewport) (ci : ℕ) (xE yE : ℚ)
    (d : OffCtx) (hci2 : ci < E2.contexts.length) :
    (((setDrawFlags
        (E2.updateCtx ci (fun c =>
          { c with renderers := c.renderers.map (fun r =>
              if r.id = vp.id then { r with rx0 := 0, ry0 := 0, rx1 := xE, ry1 := yE }
              else r) }))
        ci vp.id).contexts.getD ci d).renderers).map (fun r => (r.id, r.draw)) =
      ((E2.contexts.getD ci d).renderers).map
        (fun r => (r.id, decide (r.id = vp.id))) := by
  rw [setDrawFlags_flagpairs _ _ _ _ (by rw [updateCtx_length]; exact hci2)]
  rw [updateCtx_getD _ _ _ _ hci2]
  dsimp only
  rw [List.map_map]
  apply List.map_congr_left
  intro r _
  by_cases hr : r.id = vp.id <;> simp [Function.comp, hr]

theorem pass_after_flags (E4 : Engine) (vid : String) (ci : ℕ) (d : OffCtx)
    (hci4 : ci < E4.contexts.length) :
    ∀ r ∈ (((copyToOnscreenCanvas (resetDrawFlags E4 ci) vid).1).contexts.getD
        ci d).renderers, r.draw = false := by
  intro r hr
  rw [copyToOnscreen_contexts] at hr
  rw [resetDrawFlags_renderers _ _ _ hci4] at hr
  rw [List.mem_map] at hr
  obtain ⟨r', _, rfl⟩ := hr
  rfl

theorem pass_after_widgets (E4 : Engine) (vid : String) (ci : ℕ) :
    ∀ w ∈ ((copyToOnscreenCanvas (resetDrawFlags E4 ci) vid).1).widgets,
      w.2 = false := by
  intro w hw
  rw [copyToOnscreen_widgets, resetDrawFlags_widgets, List.mem_map] at hw
  obtain ⟨w', _, rfl⟩ := hw
  rfl

theorem flagpairs_filter (vid : String) :
    ∀ l : List String,
      (((l.map (fun x => (x, decide (x = vid)))).filter (fun p => p.2)).map
        (fun p => p.1)) = l.filter (fun x => decide (x = vid)) := by
  intro l
  induction l with
  | nil => rfl
  | cons a t ih =>
    by_cases ha : a = vid
    · simp [List.filter_cons, ha, ih]
    · simp [List.filter_cons, ha, ih]


/-- C7 (amended): during a GPU render pass exactly one sub-renderer on the
context — the rendered viewport's — has its draw flag true while every
other sub-renderer is false; widget renderers have draw true exactly when
their owner is the rendered viewport (so the rendered viewport's own
widget renderers do draw, contrary to the claim); and immediately after
the draw completes every sub-renderer and widget draw flag is false. -/
theorem C7_draw_isolation (minSize : ℕ) (e : Engine) (vp : EViewport) (ci : ℕ)
    (h1 : vp.canvas.clientWidth ≠ 0) (h2 : vp.canvas.clientHeight ≠ 0)
    (h3 : minSize ≤ vp.sWidth) (h4 : minSize ≤ vp.sHeight)
    (h5 : usesCustomPipeline vp.vtype = false)
    (h6 : e.useCPURendering = false)
    (hci : ci < e.contexts.length)
    (hnodup : (((e.contexts.getD ci ⟨0, 0, []⟩).renderers).map
      (fun r => r.id)).Nodup) :
    ∃ fr fw,
      (renderViewportWithContext minSize e vp ci).flagsAtDraw = some (fr, fw) ∧
      (∀ p ∈ fr, p.2 = decide (p.1 = vp.id)) ∧
      ((fr.filter (fun p => p.2)).map (fun p => p.1)) = [vp.id] ∧
      fw = e.widgets.map (fun w => (w.1, decide (w.1 = vp.id))) ∧
      (∀ r ∈ ((renderViewportWithContext minSize e vp ci).engine.contexts.getD ci
          ⟨0, 0, []⟩).renderers, r.draw = false) ∧
      (∀ w ∈ (renderViewportWithContext minSize e vp ci).engine.widgets,
        w.2 = false) := by
  have hc1 : ¬(vp.canvas.clientWidth = 0 ∨ vp.canvas.clientHeight = 0) := by
    tauto
  have hc2 : ¬(vp.sWidth < minSize ∨ vp.sHeight < minSize) := by omega
  have hc3 : ¬(usesCustomPipeline vp.vtype = true) := by simp [h5]
  have hc4 : ¬(e.useCPURendering = true) := by simp [h6]
  unfold renderViewportWithContext
  rw [if_neg hc1, if_neg hc2, if_neg hc3, if_neg hc4]
  dsimp only
  by_cases hpres : ((e.contexts.getD ci ⟨0, 0, []⟩).renderers.any
      fun r => r.id == vp.id) = true
  case neg =>
    rw [if_neg hpres]
    rw [Bool.not_eq_true] at hpres
    have hci1 : ci < (e.updateCtx ci fun c =>
        { c with renderers := c.renderers ++ [⟨vp.id, false, 0, 0, 1, 1⟩] }).contexts.length := by
      rw [updateCtx_length]
      exact hci
    have hci2 : ci < ((resizeOffScreenCanvasForViewport
        (e.updateCtx ci fun c =>
          { c with renderers := c.renderers ++ [⟨vp.id, false, 0, 0, 1, 1⟩] })
        vp).1).contexts.length := by
      rw [resizeOff_contexts_length]
      exact hci1
    have hrens : ((e.updateCtx ci fun c =>
        { c with renderers := c.renderers ++ [⟨vp.id, false, 0, 0, 1, 1⟩] }).contexts.getD
          ci ⟨0, 0, []⟩).renderers =
        (e.contexts.getD ci ⟨0, 0, []⟩).renderers ++ [⟨vp.id, false, 0, 0, 1, 1⟩] := by
      rw [updateCtx_getD _ _ _ _ hci]
    have hnotmem : vp.id ∉ ((e.contexts.getD ci ⟨0, 0, []⟩).renderers).map
        (fun r => r.id) := by
      intro hmem
      rw [List.mem_map] at hmem
      obtain ⟨r, hrmem, hrid⟩ := hmem
      have := List.any_eq_false.mp hpres r hrmem
      simp [hrid] at this
    refine ⟨_, _, rfl, ?_, ?_, ?_, ?_, ?_⟩
    · intro p hp
      rw [pass_flagsR _ vp ci _ _ _ hci2, resizeOff_renderers] at hp
      rw [List.mem_map] at hp
      obtain ⟨r, _, rfl⟩ := hp
      rfl
    · rw [pass_flagsR _ vp ci _ _ _ hci2, resizeOff_renderers, hrens]
      rw [show ∀ l : List SubRenderer, l.map (fun r => (r.id, decide (r.id = vp.id))) =
          (l.map (fun r => r.id)).map (fun x => (x, decide (x = vp.id))) from
        fun l => by rw [List.map_map]; rfl]
      rw [flagpairs_filter]
      apply filter_id_eq
      · rw [List.map_append]
        rw [List.nodup_append]
        refine ⟨hnodup, by simp, ?_⟩
        intro a ha hb
        simp only [List.map_cons, List.map_nil, List.mem_singleton] at hb
        exact hnotmem (hb ▸ ha)
      · rw [List.map_append]
        simp
    · rw [setDrawFlags_widgets, updateCtx_widgets, resizeOff_widgets,
        updateCtx_widgets]
    · apply pass_after_flags
      rw [setDrawFlags_length, updateCtx_length]
      exact hci2
    · apply pass_after_widgets
  case pos =>
    rw [if_pos hpres]
    have hci2 : ci < ((resizeOffScreenCanvasForViewport e vp).1).contexts.length := by
      rw [resizeOff_contexts_length]
      exact hci
    have hmem : vp.id ∈ ((e.contexts.getD ci ⟨0, 0, []⟩).renderers).map
        (fun r => r.id) := by
      obtain ⟨r, hrmem, hrid⟩ := List.any_eq_true.mp hpres
      rw [List.mem_map]
      exact ⟨r, hrmem, by simpa using hrid⟩
    refine ⟨_, _, rfl, ?_, ?_, ?_, ?_, ?_⟩
    · intro p hp
      rw [pass_flagsR _ vp ci _ _ _ hci2, resizeOff_renderers] at hp
      rw [List.mem_map] at hp
      obtain ⟨r, _, rfl⟩ := hp
      rfl
    · rw [pass_flagsR _ vp ci _ _ _ hci2, resizeOff_renderers]
      rw [show ∀ l : List SubRenderer, l.map (fun r => (r.id, decide (r.id = vp.id))) =
          (l.map (fun r => r.id)).map (fun x => (x, decide (x = vp.id))) from
        fun l => by rw [List.map_map]; rfl]
      rw [flagpairs_filter]
      exact filter_id_eq vp.id _ hnodup hmem
    · rw [setDrawFlags_widgets, updateCtx_widgets, resizeOff_widgets]
    · apply pass_after_flags
      rw [setDrawFlags_length, updateCtx_length]
      exact hci2
    · apply pass_after_widgets

/-- C7 counterexample: on a surface hosting one widget renderer owned by
the rendered viewport, the widget's draw flag is true during the isolated
draw, so it is not the case that every auxiliary widget renderer has its
draw flag set to false while the viewport draws. -/
theorem C7_counterexample :
    (renderViewportWithContext 10 exEngine7 exVp7 0).flagsAtDraw =
      some ([("A", true)], [("A", true)]) := by
  rfl

theorem C7_draw_isolation_witness :
    ∃ fr fw,
      (renderViewportWithContext 10 exEngine7 exVp7 0).flagsAtDraw = some (fr, fw) ∧
      (∀ p ∈ fr, p.2 = decide (p.1 = exVp7.id)) ∧
      ((fr.filter (fun p => p.2)).map (fun p => p.1)) = [exVp7.id] ∧
      fw = exEngine7.widgets.map (fun w => (w.1, decide (w.1 = exVp7.id))) ∧
      (∀ r ∈ ((renderViewportWithContext 10 exEngine7 exVp7 0).engine.contexts.getD 0
          ⟨0, 0, []⟩).renderers, r.draw = false) ∧
      (∀ w ∈ (renderViewportWithContext 10 exEngine7 exVp7 0).engine.widgets,
        w.2 = false) := by
  exact C7_draw_isolation 10 exEngine7 exVp7 0 (by decide) (by decide) (by decide)
    (by decide) rfl rfl (by decide) (by decide)

theorem refresh_channels (st : ECGState) :
    (refreshRenderValues st).channels = st.channels := by
  unfold refreshRenderValues
  split <;> rfl

theorem refresh_channelScale (st : ECGState) :
    (refreshRenderValues st).channelScale = st.channelScale := by
  unfold refreshRenderValues
  split <;> rfl

theorem refresh_ecgHeight (st : ECGState) :
    (refreshRenderValues st).ecgHeight = st.ecgHeight := by
  unfold refreshRenderValues
  split <;> rfl

theorem refresh_ecgWidth (st : ECGState) :
    (refreshRenderValues st).ecgWidth = st.ecgWidth := by
  unfold refreshRenderValues
  split <;> rfl

theorem refresh_offsetW (st : ECGState) :
    (refreshRenderValues st).canvasOffsetW = st.canvasOffsetW := by
  unfold refreshRenderValues
  split <;> rfl

theorem refresh_offsetH (st : ECGState) :
    (refreshRenderValues st).canvasOffsetH = st.canvasOffsetH := by
  unfold refreshRenderValues
  split <;> rfl

theorem computeChannelScale_congr (a b : ECGState) (h1 : a.channels = b.channels)
    (h2 : a.ecgWidth = b.ecgWidth) (h3 : a.canvasOffsetW = b.canvasOffsetW)
    (h4 : a.canvasOffsetH = b.canvasOffsetH) :
    computeChannelScale a = computeChannelScale b := by
  unfold computeChannelScale
  rw [h1, h2, h3, h4]

theorem setvis_channels (st : ECGState) (i : ℕ) (v : Bool)
    (hi : i < st.channels.length) :
    (setChannelVisibility st i v).channels =
      st.channels.set i { st.channels.getD i default with visible := v } := by
  unfold setChannelVisibility
  rw [if_pos hi]
  exact refresh_channels _

theorem setvis_scale (st : ECGState) (i : ℕ) (v : Bool)
    (hi : i < st.channels.length) :
    (setChannelVisibility st i v).channelScale =
      computeChannelScale { st with
        channels := st.channels.set i { st.channels.getD i default with visible := v } } := by
  unfold setChannelVisibility
  rw [if_pos hi]
  exact refresh_channelScale _

theorem setvis_height (st : ECGState) (i : ℕ) (v : Bool)
    (hi : i < st.channels.length) :
    (setChannelVisibility st i v).ecgHeight =
      recalculateHeight
        (st.channels.set i { st.channels.getD i default with visible := v })
        (computeChannelScale { st with
          channels := st.channels.set i { st.channels.getD i default with visible := v } }) := by
  unfold setChannelVisibility
  rw [if_pos hi]
  exact refresh_ecgHeight _

theorem setvis_width (st : ECGState) (i : ℕ) (v : Bool) :
    (setChannelVisibility st i v).ecgWidth = st.ecgWidth := by
  unfold setChannelVisibility
  split
  · exact refresh_ecgWidth _
  · rfl

theorem setvis_offsetW (st : ECGState) (i : ℕ) (v : Bool) :
    (setChannelVisibility st i v).canvasOffsetW = st.canvasOffsetW := by
  unfold setChannelVisibility
  split
  · exact refresh_offsetW _
  · rfl

theorem setvis_offsetH (st : ECGState) (i : ℕ) (v : Bool) :
    (setChannelVisibility st i v).canvasOffsetH = st.canvasOffsetH := by
  unfold setChannelVisibility
  split
  · exact refresh_offsetH _
  · rfl

theorem set_getD_self : ∀ (l : List ECGChannel) (i : ℕ), i < l.length →
    l.set i (l.getD i default) = l := by
  intro l
  induction l with
  | nil => intro i hi; simp at hi
  | cons c t ih =>
    intro i hi
    cases i with
    | zero => rfl
    | succ i =>
      show c :: t.set i (t.getD i default) = c :: t
      rw [ih i (by simpa using Nat.lt_of_succ_lt_succ hi)]

theorem getD_set_self (l : List ECGChannel) (i : ℕ) (a : ECGChannel)
    (hi : i < l.length) :
    (l.set i a).getD i default = a := by
  rw [List.getD_eq_getElem?_getD, List.getElem?_set_self]
  · rfl
  · exact hi

theorem visibleNonEmpty_set_invisible :
    ∀ (l : List ECGChannel) (j : ℕ) (a : ECGChannel), j < l.length →
      (l.getD j default).visible = false → a.visible = false →
      visibleNonEmpty (l.set j a) = visibleNonEmpty l := by
  intro l
  induction l with
  | nil => intro j _ hj; simp at hj
  | cons c t ih =>
    intro j a hj hvis havis
    cases j with
    | zero =>
      show visibleNonEmpty (a :: t) = visibleNonEmpty (c :: t)
      unfold visibleNonEmpty
      rw [List.filter_cons_of_neg (by simp [havis]),
        List.filter_cons_of_neg (by simp [show c.visible = false from hvis])]
    | succ j =>
      show visibleNonEmpty (c :: t.set j a) = visibleNonEmpty (c :: t)
      unfold visibleNonEmpty
      rw [List.filter_cons, List.filter_cons]
      have := ih j a (by simpa using Nat.lt_of_succ_lt_succ hj) hvis havis
      unfold visibleNonEmpty at this
      rw [this]

theorem heightFold_add (s : ℚ) :
    ∀ (t : List ECGChannel) (acc x : ℚ),
      t.foldl (fun acc c =>
        if c.visible ∧ 0 < c.data.length then
          acc + (((c.max - c.min : ℤ) : ℚ) * s * (5 / 4) + 5)
        else acc) (acc + x) =
      t.foldl (fun acc c =>
        if c.visible ∧ 0 < c.data.length then
          acc + (((c.max - c.min : ℤ) : ℚ) * s * (5 / 4) + 5)
        else acc) acc + x := by
  intro t
  induction t with
  | nil => intro acc x; rfl
  | cons c t ih =>
    intro acc x
    rw [List.foldl_cons, List.foldl_cons]
    by_cases hc : c.visible = true ∧ 0 < c.data.length
    · rw [if_pos hc, if_pos hc,
        show acc + x + (((c.max - c.min : ℤ) : ℚ) * s * (5 / 4) + 5) =
          (acc + (((c.max - c.min : ℤ) : ℚ) * s * (5 / 4) + 5)) + x by ring]
      exact ih _ x
    · rw [if_neg hc, if_neg hc]
      exact ih acc x

theorem heightFold_set_invisible (s : ℚ) :
    ∀ (l : List ECGChannel) (j : ℕ) (a : ECGChannel) (acc : ℚ), j < l.length →
      (l.getD j default).visible = false → a.visible = false →
      (l.set j a).foldl (fun acc c =>
        if c.visible ∧ 0 < c.data.length then
          acc + (((c.max - c.min : ℤ) : ℚ) * s * (5 / 4) + 5)
        else acc) acc =
      l.foldl (fun acc c =>
        if c.visible ∧ 0 < c.data.length then
          acc + (((c.max - c.min : ℤ) : ℚ) * s * (5 / 4) + 5)
        else acc) acc := by
  intro l
  induction l with
  | nil => intro j _ _ hj; simp at hj
  | cons c t ih =>
    intro j a acc hj hvis havis
    cases j with
    | zero =>
      show (a :: t).foldl _ acc = (c :: t).foldl _ acc
      rw [List.foldl_cons, List.foldl_cons,
        if_neg (by simp [havis]), if_neg (by simp [show c.visible = false from hvis])]
    | succ j =>
      show (c :: t.set j a).foldl _ acc = (c :: t).foldl _ acc
      rw [List.foldl_cons, List.foldl_cons]
      exact ih j a _ (by simpa using Nat.lt_of_succ_lt_succ hj) hvis havis

theorem heightFold_hide (s : ℚ) :
    ∀ (l : List ECGChannel) (i : ℕ) (acc : ℚ), i < l.length →
      (l.getD i default).visible = true → 0 < (l.getD i default).data.length →
      (l.set i { l.getD i default with visible := false }).foldl (fun acc c =>
        if c.visible ∧ 0 < c.data.length then
          acc + (((c.max - c.min : ℤ) : ℚ) * s * (5 / 4) + 5)
        else acc) acc =
      l.foldl (fun acc c =>
        if c.visible ∧ 0 < c.data.length then
          acc + (((c.max - c.min : ℤ) : ℚ) * s * (5 / 4) + 5)
        else acc) acc -
        ((((l.getD i default).max - (l.getD i default).min : ℤ) : ℚ) * s * (5 / 4) + 5) := by
  intro l
  induction l with
  | nil => intro i _ hi; simp at hi
  | cons c t ih =>
    intro i acc hi hvis hlen
    cases i with
    | zero =>
      show ({ c with visible := false } :: t).foldl _ acc = _
      rw [List.foldl_cons, List.foldl_cons, if_neg (by simp),
        if_pos ⟨show c.visible = true from hvis, hlen⟩]
      rw [show ((c :: t).getD 0 default) = c from rfl]
      rw [heightFold_add]
      exact (add_sub_cancel_right _ _).symm
    | succ i =>
      show (c :: t.set i _).foldl _ acc = _
      rw [List.foldl_cons, List.foldl_cons]
      exact ih i _ (by simpa using Nat.lt_of_succ_lt_succ hi) hvis hlen

/-- C4: the amplitude scale and total content height are functions of only
the visible non-empty channels; the scale factors only through the count
of visible channels and the single largest visible amplitude range (not a
per-channel scale); hiding a channel removes exactly its band height
contribution; and hide-then-show restores the prior scale and height on
unchanged data. -/
theorem C4_visible_channels (st : ECGState) (i : ℕ)
    (hi : i < st.channels.length)
    (hvis : (st.channels.getD i default).visible = true)
    (hscale : st.channelScale = computeChannelScale st)
    (hheight : st.ecgHeight = recalculateHeight st.channels st.channelScale) :
    ((setChannelVisibility (setChannelVisibility st i false) i true).channelScale =
        st.channelScale ∧
      (setChannelVisibility (setChannelVisibility st i false) i true).ecgHeight =
        st.ecgHeight) ∧
    (∀ (j : ℕ) (ch2 : ECGChannel), j < st.channels.length →
      (st.channels.getD j default).visible = false → ch2.visible = false →
      computeChannelScale { st with channels := st.channels.set j ch2 } =
          computeChannelScale st ∧
        ∀ sc : ℚ, recalculateHeight (st.channels.set j ch2) sc =
          recalculateHeight st.channels sc) ∧
    (∀ st2 : ECGState,
      (visibleNonEmpty st2.channels).length = (visibleNonEmpty st.channels).length →
      maxVisibleRange st2.channels = maxVisibleRange st.channels →
      st2.ecgWidth = st.ecgWidth → st2.canvasOffsetW = st.canvasOffsetW →
      st2.canvasOffsetH = st.canvasOffsetH →
      computeChannelScale st2 = computeChannelScale st) ∧
    (0 < (st.channels.getD i default).data.length →
      ∀ sc : ℚ,
        recalculateHeight
          (st.channels.set i { st.channels.getD i default with visible := false }) sc =
        recalculateHeight st.channels sc -
          ((((st.channels.getD i default).max -
            (st.channels.getD i default).min : ℤ) : ℚ) * sc * (5 / 4) + 5)) := by
  refine ⟨?_, ?_, ?_, ?_⟩
  · have hlen1 : i < ((setChannelVisibility st i false).channels).length := by
      rw [setvis_channels st i false hi, List.length_set]
      exact hi
    have hB : ∀ ch : ECGChannel, ch.visible = true →
        ({ { ch with visible := false } with visible := true } : ECGChannel) = ch := by
      intro ch h
      cases ch with
      | mk n dt vb mn mx =>
        have h2 : vb = true := h
        subst h2
        rfl
    have hch1 : ((setChannelVisibility st i false).channels.set i
        { (setChannelVisibility st i false).channels.getD i default with visible := true }) =
        st.channels := by
      rw [setvis_channels st i false hi, getD_set_self _ _ _ hi, List.set_set,
        hB _ hvis, set_getD_self st.channels i hi]
    constructor
    · rw [setvis_scale _ i true hlen1, hscale]
      exact computeChannelScale_congr _ _ hch1 (setvis_width st i false)
        (setvis_offsetW st i false) (setvis_offsetH st i false)
    · rw [setvis_height _ i true hlen1, hch1]
      have hcs2 : computeChannelScale { setChannelVisibility st i false with
          channels := st.channels } = computeChannelScale st :=
        computeChannelScale_congr _ _ rfl (setvis_width st i false)
          (setvis_offsetW st i false) (setvis_offsetH st i false)
      rw [hcs2, ← hscale, hheight]
  · intro j ch2 hj hjvis hch2vis
    constructor
    · unfold computeChannelScale
      rw [show ({ st with channels := st.channels.set j ch2 } : ECGState).channels =
        st.channels.set j ch2 from rfl]
      rw [show maxVisibleRange (st.channels.set j ch2) = maxVisibleRange st.channels by
        unfold maxVisibleRange
        rw [visibleNonEmpty_set_invisible st.channels j ch2 hj hjvis hch2vis]]
      rw [visibleNonEmpty_set_invisible st.channels j ch2 hj hjvis hch2vis]
    · intro sc
      unfold recalculateHeight
      exact heightFold_set_invisible sc st.channels j ch2 0 hj hjvis hch2vis
  · intro st2 hlen hrange hw how hoh
    simp only [computeChannelScale]
    simp only [hlen, hrange, hw, how, hoh]
  · intro hdata sc
    unfold recalculateHeight
    exact heightFold_hide sc st.channels i 0 hi hvis hdata

theorem layoutsAux_lb (scale : ℚ) (hs : 0 ≤ scale) :
    ∀ (cs : List ECGChannel) (y0 : ℚ), (∀ ch ∈ cs, ch.min ≤ ch.max) →
      ∀ l ∈ computeChannelLayoutsAux scale y0 cs, y0 < l.yOffset := by
  intro cs
  induction cs with
  | nil =>
    intro y0 _ l hl
    simp [computeChannelLayoutsAux] at hl
  | cons ch rest ih =>
    intro y0 hbound l hl
    unfold computeChannelLayoutsAux at hl
    by_cases hcond : ch.visible = true ∧ 0 < ch.data.length
    · rw [if_pos hcond] at hl
      dsimp only at hl
      have hitem : 0 ≤ ((ch.max - ch.min : ℤ) : ℚ) * scale * (5 / 4) := by
        have h1 : (0 : ℚ) ≤ ((ch.max - ch.min : ℤ) : ℚ) := by
          have := hbound ch (List.mem_cons_self ch rest)
          exact_mod_cast sub_nonneg.mpr this
        have h2 : (0 : ℚ) ≤ 5 / 4 := by norm_num
        exact mul_nonneg (mul_nonneg h1 hs) h2
      rcases List.mem_cons.mp hl with h | h
      · rw [h]
        dsimp only
        linarith
      · have := ih (y0 + ((ch.max - ch.min : ℤ) : ℚ) * scale * (5 / 4) + 5)
          (fun ch2 hm => hbound ch2 (List.mem_cons_of_mem ch hm)) l h
        linarith
    · rw [if_neg hcond] at hl
      exact ih y0 (fun ch2 hm => hbound ch2 (List.mem_cons_of_mem ch hm)) l hl

theorem layoutsAux_pairwise (scale : ℚ) (hs : 0 ≤ scale) :
    ∀ (cs : List ECGChannel) (y0 : ℚ), (∀ ch ∈ cs, ch.min ≤ ch.max) →
      (computeChannelLayoutsAux scale y0 cs).Pairwise
        (fun p q : ChannelLayout => p.yOffset < q.yOffset) := by
  intro cs
  induction cs with
  | nil => intro y0 _; exact List.Pairwise.nil
  | cons ch rest ih =>
    intro y0 hbound
    unfold computeChannelLayoutsAux
    by_cases hcond : ch.visible = true ∧ 0 < ch.data.length
    · rw [if_pos hcond]
      dsimp only
      refine List.Pairwise.cons ?_
        (ih _ (fun ch2 hm => hbound ch2 (List.mem_cons_of_mem ch hm)))
      intro q hq
      exact layoutsAux_lb scale hs rest _
        (fun ch2 hm => hbound ch2 (List.mem_cons_of_mem ch hm)) q hq
    · rw [if_neg hcond]
      exact ih y0 (fun ch2 hm => hbound ch2 (List.mem_cons_of_mem ch hm))

theorem findFirstLE_eq (v : ℚ) :
    ∀ (ls : List ChannelLayout) (c : ℕ), c < ls.length →
      (∀ j, j < c → (ls.getD j default).yOffset < v) →
      v ≤ (ls.getD c default).yOffset →
      findFirstLE v ls = some c := by
  intro ls
  induction ls with
  | nil =>
    intro c hc _ _
    exact absurd hc (by simp)
  | cons l t ih =>
    intro c hc hlt hle
    cases c with
    | zero =>
      unfold findFirstLE
      have hle' : v ≤ l.yOffset := hle
      rw [if_pos hle']
    | succ c =>
      unfold findFirstLE
      have h0 : ¬ v ≤ l.yOffset := not_le.mpr (hlt 0 (Nat.succ_pos c))
      rw [if_neg h0]
      rw [ih c (Nat.lt_of_succ_lt_succ hc)
        (fun j hj => hlt (j + 1) (Nat.succ_lt_succ hj)) hle]
      rfl

theorem layout_getD_eq_getElem (ls : List ChannelLayout) (j : ℕ)
    (hj : j < ls.length) : ls.getD j default = ls[j] := by
  rw [List.getD_eq_getElem?_getD, List.getElem?_eq_getElem hj]
  rfl

/-- C3: on a loaded waveform viewport, for a world point whose channel index
is a visible band, whose sample index is within bounds, and which lies
strictly inside that band, `canvasToWorld` inverts `worldToCanvas` exactly —
in particular within the 1-unit tolerance in each component. -/
theorem C3_roundtrip (st : ECGState) (s a : ℚ) (c : ℕ)
    (hwf : st.hasWaveformData = true)
    (hcs : 0 < st.channelScale)
    (hps : st.parallelScale ≠ 0)
    (hW : st.ecgWidth ≠ 0)
    (hn : 0 < st.numberOfSamples)
    (hbound : ∀ ch ∈ st.channels, ch.min ≤ ch.max)
    (hc : c < (computeChannelLayouts st).length)
    (hs0 : 0 ≤ s) (hs1 : s ≤ (st.numberOfSamples : ℚ) - 1)
    (hlo : bandTop st c <
      ((computeChannelLayouts st).getD c default).baseline - a * st.channelScale)
    (hhi : ((computeChannelLayouts st).getD c default).baseline - a * st.channelScale ≤
      ((computeChannelLayouts st).getD c default).yOffset) :
    canvasToWorld st (worldToCanvas st (s, a, (c : ℚ))) = (s, a, (c : ℚ)) ∧
    |(canvasToWorld st (worldToCanvas st (s, a, (c : ℚ)))).1 - s| ≤ 1 ∧
    |(canvasToWorld st (worldToCanvas st (s, a, (c : ℚ)))).2.1 - a| ≤ 1 ∧
    |(canvasToWorld st (worldToCanvas st (s, a, (c : ℚ)))).2.2 - (c : ℚ)| ≤ 1 := by
  have hcs' : st.channelScale ≠ 0 := ne_of_gt hcs
  have hn' : (st.numberOfSamples : ℚ) ≠ 0 := Nat.cast_ne_zero.mpr hn.ne'
  have hguard : ¬((c : ℤ) < 0 ∨ ((computeChannelLayouts st).length : ℤ) ≤ (c : ℤ)) := by
    push_neg
    exact ⟨Int.natCast_nonneg c, by exact_mod_cast hc⟩
  have hW2C : worldToCanvas st (s, a, (c : ℚ)) =
      (s / (st.numberOfSamples : ℚ) * st.ecgWidth * st.parallelScale +
        st.panWorldX * st.parallelScale,
       (((computeChannelLayouts st).getD c default).baseline - a * st.channelScale) *
        st.parallelScale + st.panWorldY * st.parallelScale) := by
    unfold worldToCanvas
    rw [if_neg (by simp [hwf])]
    dsimp only
    rw [round_natCast, if_neg hguard, Int.toNat_natCast]
  have hylt : ∀ j, j < c →
      ((computeChannelLayouts st).getD j default).yOffset <
        ((computeChannelLayouts st).getD c default).baseline - a * st.channelScale := by
    intro j hj
    have hjlen : j < (computeChannelLayouts st).length := Nat.lt_trans hj hc
    have hpw : (computeChannelLayouts st).Pairwise
        (fun p q : ChannelLayout => p.yOffset < q.yOffset) :=
      layoutsAux_pairwise st.channelScale (le_of_lt hcs) st.channels 0 hbound
    have hmono := List.pairwise_iff_getElem.mp hpw
    cases c with
    | zero => exact absurd hj (Nat.not_lt_zero j)
    | succ k =>
      have hklen : k < (computeChannelLayouts st).length := Nat.lt_of_succ_lt hc
      have hbt : bandTop st (k + 1) =
          ((computeChannelLayouts st).getD k default).yOffset := by
        unfold bandTop
        rw [if_neg (Nat.succ_ne_zero k)]
        simp
      have hk_lt : ((computeChannelLayouts st).getD k default).yOffset <
          ((computeChannelLayouts st).getD (k + 1) default).baseline -
            a * st.channelScale := by
        rw [← hbt]
        exact hlo
      rcases Nat.lt_succ_iff_lt_or_eq.mp hj with hjk | hjk
      · have hjy := hmono j k hjlen hklen hjk
        have hjk2 : ((computeChannelLayouts st).getD j default).yOffset <
            ((computeChannelLayouts st).getD k default).yOffset := by
          rw [layout_getD_eq_getElem _ j hjlen, layout_getD_eq_getElem _ k hklen]
          exact hjy
        exact lt_trans hjk2 hk_lt
      · subst hjk
        exact hk_lt
  have hfind : findFirstLE
      (((computeChannelLayouts st).getD c default).baseline - a * st.channelScale)
      (computeChannelLayouts st) = some c :=
    findFirstLE_eq _ _ c hc hylt hhi
  have hchan : findChannelIdx (computeChannelLayouts st)
      (((computeChannelLayouts st).getD c default).baseline - a * st.channelScale) = c := by
    unfold findChannelIdx
    rw [hfind]
  have key : canvasToWorld st (worldToCanvas st (s, a, (c : ℚ))) = (s, a, (c : ℚ)) := by
    rw [hW2C]
    unfold canvasToWorld
    rw [if_neg (by simp [hwf])]
    dsimp only
    have hsub2 : ((((computeChannelLayouts st).getD c default).baseline -
        a * st.channelScale) * st.parallelScale +
          st.panWorldY * st.parallelScale) / st.parallelScale - st.panWorldY =
        ((computeChannelLayouts st).getD c default).baseline - a * st.channelScale := by
      field_simp
      ring
    have hsub1 : (s / (st.numberOfSamples : ℚ) * st.ecgWidth * st.parallelScale +
        st.panWorldX * st.parallelScale) / st.parallelScale - st.panWorldX =
        s / (st.numberOfSamples : ℚ) * st.ecgWidth := by
      field_simp
      ring
    rw [hsub2, hchan, hsub1]
    have hx : s / (st.numberOfSamples : ℚ) * st.ecgWidth * (st.numberOfSamples : ℚ) /
        st.ecgWidth = s := by
      field_simp
    rw [hx, min_eq_right hs1, max_eq_right hs0]
    have hy : (((computeChannelLayouts st).getD c default).baseline -
        (((computeChannelLayouts st).getD c default).baseline -
          a * st.channelScale)) / st.channelScale = a := by
      rw [show ((computeChannelLayouts st).getD c default).baseline -
        (((computeChannelLayouts st).getD c default).baseline -
          a * st.channelScale) = a * st.channelScale from by ring,
        mul_div_cancel_right₀ a hcs']
    rw [hy]
  refine ⟨key, ?_, ?_, ?_⟩ <;> rw [key] <;> simp

theorem C3_roundtrip_witness :
    canvasToWorld exSt3 (worldToCanvas exSt3 (1, 1, ((0 : ℕ) : ℚ))) =
      (1, 1, ((0 : ℕ) : ℚ)) :=
  (C3_roundtrip exSt3 1 1 0 rfl (by norm_num [exSt3]) (by norm_num [exSt3])
    (by norm_num [exSt3]) (by decide) (by decide) (by decide)
    (by norm_num [exSt3]) (by norm_num [exSt3])
    (by norm_num [bandTop, computeChannelLayouts, computeChannelLayoutsAux, exSt3])
    (by norm_num [computeChannelLayouts, computeChannelLayoutsAux, exSt3])).1

theorem C4_visible_channels_witness :
    (setChannelVisibility (setChannelVisibility exSt4 0 false) 0 true).channelScale =
        exSt4.channelScale ∧
      (setChannelVisibility (setChannelVisibility exSt4 0 false) 0 true).ecgHeight =
        exSt4.ecgHeight :=
  (C4_visible_channels exSt4 0 (by decide) (by decide)
    ((computeChannelScale_congr exSt4 exSt4base rfl rfl rfl rfl).symm) rfl).1

end S2P
